/-
Verification of the KratosNOVA contract-marketplace core.

This file gives a shallow embedding in Lean 4 of the state-manipulating
logic of the repository and proves the specified properties about it.

Embedded components (source file references are to the repository):
  * src/agent_critic/app.py          - process_evaluation, select_winner,
    reformulate_and_repost_contract, enrich_submissions_with_reputation,
    update_winner_submission, update_contract_status,
    update_agent_reputation, save_final_result
  * src/submissions_manager/app.py   - handler (post_submission)
  * src/freelancer_orchestrator/app.py - delegate_task
  * src/agent_copywriter/app.py      - handler self-correction loop,
    generate_and_parse_slogans

Modelling conventions:
  * DynamoDB tables are association lists; put_item replaces the row with
    the same key (filter + cons); update_item maps over rows with the key
    (in every reachable call the row exists, so the upsert case of
    update_item never fires for contracts/submissions; for the agents
    table the ADD-upsert is modelled explicitly).
  * The sha256 prompt fingerprint is modelled as the identity function on
    the prompt text; collisions of sha256 are assumed impossible.
  * Generative-model calls (Bedrock) are oracles passed in as parameters;
    an instrumentation counter bedrockCalls counts backend invocations and
    subPuts counts put_item calls on the submissions table.  Cache entries
    never expire inside the model (all claims are scoped to the unexpired
    window).
  * A cache row stores the literal response string together with its
    parse as winner-selection JSON (json.loads of the stored string);
    reformulation responses are free text, recorded with parse `none`.
  * Python truthiness of optional strings: None and "" are falsy.
  * uuid4 values are parameters; freshness is a hypothesis where a claim
    needs it.
-/
import Mathlib

namespace KratosNova

/-- A row of the Contracts table (key: contract_id). -/
structure Contract where
  contract_id : String
  goal_id : Option String
  status : String
  title : String
  description : String
  contract_type : String
  budget : Int
  created_at : String
deriving Repr, DecidableEq

/-- A row of the Submissions table (key: submission_id; GSI on contract_id). -/
structure Submission where
  submission_id : String
  contract_id : String
  agent_id : Option String
  submission_data : String
  created_at : String
  is_winner : Bool
deriving Repr, DecidableEq

/-- A row of the Agents table (key: agent_id). -/
structure Agent where
  agent_id : String
  reputation : Int
deriving Repr, DecidableEq

/-- A row of the Results table (key: goal_id, contract_id), as written by
save_final_result. -/
structure ResultRec where
  goal_id : String
  contract_id : String
  winning_submission_id : String
  winning_agent_id : Option String
  submission_data : String
  contract_type : String
  evaluated_at : String
deriving Repr, DecidableEq

/-- The parsed winner-selection JSON object
(keys winning_submission_id / justification may be absent). -/
structure WinnerJson where
  winning_submission_id : Option String
  justification : Option String
deriving Repr, DecidableEq

/-- A Bedrock-cache row value: the stored response string, together with its
parse as winner-selection JSON (the json.loads the select_winner cache-hit
path would perform on it; none for free-text reformulation responses). -/
structure CacheVal where
  text : String
  asWinner : Option WinnerJson
deriving Repr, DecidableEq

/-- The persistent stores, plus instrumentation counters:
bedrockCalls counts invoke_model calls, subPuts counts put_item calls on
the Submissions table. -/
structure MarketState where
  contracts : List Contract
  submissions : List Submission
  agents : List Agent
  results : List ResultRec
  cache : List (String × CacheVal)
  bedrockCalls : Nat
  subPuts : Nat
deriving Repr, DecidableEq

/-- An API Gateway style response. -/
structure ApiResponse where
  statusCode : Nat
  body : String
deriving Repr, DecidableEq

/-- Python truthiness of an optional string: None and "" are falsy. -/
def optTruthy : Option String → Bool
  | none => false
  | some s => !s.isEmpty

/-- The sha256 prompt fingerprint, modelled as the identity on the prompt
text (collision-freedom of sha256 assumed). -/
def sha256 (s : String) : String := s

/-- get_item on the cache table. -/
def lookupCache (cache : List (String × CacheVal)) (h : String) : Option CacheVal :=
  (cache.find? (fun e => e.1 == h)).map (fun e => e.2)

/-- put_item on the cache table (replaces the row with the same key). -/
def putCache (h : String) (v : CacheVal) (cache : List (String × CacheVal)) :
    List (String × CacheVal) :=
  (h, v) :: cache.filter (fun e => e.1 != h)

/-- get_contract (agent_critic/app.py lines 258-268): get_item on the
Contracts table; None here corresponds to the ValueError raise. -/
def get_contract (st : MarketState) (cid : String) : Option Contract :=
  st.contracts.find? (fun c => c.contract_id == cid)

/-- put_item on the Contracts table (replaces the row with the same key). -/
def putContract (c : Contract) (l : List Contract) : List Contract :=
  c :: l.filter (fun c2 => c2.contract_id != c.contract_id)

/-- get_submissions_for_contract (lines 245-255): GSI query by contract_id. -/
def get_submissions_for_contract (st : MarketState) (cid : String) : List Submission :=
  st.submissions.filter (fun s => s.contract_id == cid)

/-- update_contract_status (lines 372-384): SET status on the row with the
given key (the row always exists at call sites, having just been read). -/
def update_contract_status (cid status : String) (st : MarketState) : MarketState :=
  { st with contracts :=
      st.contracts.map (fun c =>
        if c.contract_id == cid then { c with status := status } else c) }

/-- update_winner_submission (lines 358-369): SET is_winner = true on the
row with the given key. -/
def update_winner_submission (sid : String) (st : MarketState) : MarketState :=
  { st with submissions :=
      st.submissions.map (fun s =>
        if s.submission_id == sid then { s with is_winner := true } else s) }

/-- update_agent_reputation (lines 387-399): ADD reputation :inc, which in
DynamoDB increments the existing row or creates one with reputation = inc. -/
def update_agent_reputation (aid : String) (score : Int) (st : MarketState) : MarketState :=
  if st.agents.any (fun a => a.agent_id == aid) then
    { st with agents :=
        st.agents.map (fun a =>
          if a.agent_id == aid then { a with reputation := a.reputation + score } else a) }
  else
    { st with agents := st.agents ++ [{ agent_id := aid, reputation := score }] }

/-- save_final_result (lines 402-422): skipped when goal_id is falsy,
otherwise writes the Result row. -/
def save_final_result (goal_id : Option String) (contract : Contract)
    (winner : Submission) (now : String) (st : MarketState) : MarketState :=
  match goal_id with
  | none => st
  | some g =>
    if g.isEmpty then st
    else
      { st with results :=
          { goal_id := g
            contract_id := contract.contract_id
            winning_submission_id := winner.submission_id
            winning_agent_id := winner.agent_id
            submission_data := winner.submission_data
            contract_type := contract.contract_type
            evaluated_at := now } :: st.results }

/-- Reputation of the author of a submission, as looked up by
enrich_submissions_with_reputation: 0 when the agent id is falsy or the
agent row is absent. -/
def reputationOf (agents : List Agent) (aid : Option String) : Int :=
  match aid with
  | none => 0
  | some a =>
    if a.isEmpty then 0
    else ((agents.find? (fun ag => ag.agent_id == a)).map (fun ag => ag.reputation)).getD 0

/-- enrich_submissions_with_reputation (lines 145-175): pairs each
submission with the current reputation of its author. -/
def enrich_submissions_with_reputation (agents : List Agent) (subs : List Submission) :
    List (Submission × Int) :=
  subs.map (fun s => (s, reputationOf agents s.agent_id))

/-- The per-submission block of the winner-selection prompt
(lines 277-285). -/
def submissionBlock (p : Submission × Int) : String :=
  "<submission>\n  <id>" ++ p.1.submission_id ++ "</id>\n  <content>" ++
    p.1.submission_data ++ "</content>\n  <author_reputation>" ++
    toString p.2 ++ "</author_reputation>\n</submission>\n"

/-- The winner-selection prompt (lines 286-314); the fingerprint therefore
covers the contract title and description and the full submission set with
ids, contents and author reputations. -/
def selectPrompt (c : Contract) (subs : List (Submission × Int)) : String :=
  "You are an expert Art Director and Chief Editor responsible for judging submissions in a creative competition.\n" ++
  "Your task is to select the single best submission that most effectively and creatively fulfills the original creative brief.\n" ++
  "**Creative Brief (The Original Task):**\n<brief>\n<title>" ++ c.title ++
  "</title>\n<description>" ++ c.description ++ "</description>\n</brief>\n" ++
  "**Submissions to Evaluate:**\n<submissions>\n" ++
  String.join (subs.map submissionBlock) ++
  "</submissions>\n**Your Instructions:** evaluate each submission on relevance, creativity and quality; prefer higher author_reputation on near ties; choose ONE winner.\n" ++
  "Respond with ONLY a single, raw JSON object: \x7b \"winning_submission_id\": ..., \"justification\": ... \x7d"

/-- The reformulation prompt (lines 189-199), keyed by the original
description. -/
def reformPrompt (old_description : String) : String :=
  "You are a Creative Director tasked with improving a task description that failed to attract any submissions from AI agents.\n" ++
  "The original description was:\n<original_description>\n" ++ old_description ++
  "\n</original_description>\nYour job is to rewrite this description to be clearer, more engaging, and more appealing to a creative AI agent.\n" ++
  "Respond with ONLY the new description text, without any preamble."

/-- json.dumps of a parsed winner object, as stored in the cache by
select_winner. -/
def dumpsWinner (w : WinnerJson) : String :=
  "\x7b\"winning_submission_id\": " ++
    (match w.winning_submission_id with
     | none => "null"
     | some s => "\"" ++ s ++ "\"") ++
  ", \"justification\": " ++
    (match w.justification with
     | none => "null"
     | some s => "\"" ++ s ++ "\"") ++ "\x7d"

/-- Outcome of the winner-selection Bedrock call after response parsing
(lines 331-340): ok carries the parsed JSON object; err covers a
ClientError from invoke_model, a response with no JSON object, and a
JSON decode failure, all of which raise before the cache write. -/
inductive JudgeReply where
  | ok (w : WinnerJson)
  | err (msg : String)
deriving Repr, DecidableEq

/-- select_winner (lines 271-355).  Returns the parsed winner object or the
raised error, together with the updated state (cache write happens only on
a successful fresh parse; on a cache hit whose stored text is not winner
JSON, the json.loads on the hit path raises). -/
def select_winner (reply : JudgeReply) (c : Contract)
    (subs : List (Submission × Int)) (st : MarketState) :
    Except String WinnerJson × MarketState :=
  let h := sha256 (selectPrompt c subs)
  match lookupCache st.cache h with
  | some v =>
    match v.asWinner with
    | some w => (Except.ok w, st)
    | none => (Except.error "cached response is not valid JSON", st)
  | none =>
    let st1 := { st with bedrockCalls := st.bedrockCalls + 1 }
    match reply with
    | JudgeReply.err m => (Except.error ("Failed to select a winner. Details: " ++ m), st1)
    | JudgeReply.ok w =>
      (Except.ok w,
        { st1 with cache := putCache h { text := dumpsWinner w, asWinner := some w } st1.cache })

/-- The fallback suffix appended when reformulation hits a cache or
Bedrock error (line 224). -/
def reformFallback (d : String) : String :=
  d ++ " (reformulation failed, please try again)"

/-- reformulate_and_repost_contract (lines 178-242).
cacheReadOk = false models a ClientError on the cache get_item; reply =
some t models a successful invoke + parse + cache put yielding text t;
reply = none models a ClientError / JSONDecodeError / ValueError anywhere
in the Bedrock branch of the try block.  Every path then marks the
original FAILED_REPOSTED and creates the new contract. -/
def reformulate_and_repost_contract (cacheReadOk : Bool) (reply : Option String)
    (newUuid now : String) (orig : Contract) (st : MarketState) :
    Contract × MarketState :=
  let h := sha256 (reformPrompt orig.description)
  let step1 : String × MarketState :=
    if cacheReadOk then
      match lookupCache st.cache h with
      | some v => (v.text, st)
      | none =>
        match reply with
        | some t =>
          (t, { st with bedrockCalls := st.bedrockCalls + 1,
                        cache := putCache h { text := t, asWinner := none } st.cache })
        | none =>
          (reformFallback orig.description,
            { st with bedrockCalls := st.bedrockCalls + 1 })
    else
      (reformFallback orig.description, st)
  let newDesc := step1.1
  let st2 := update_contract_status orig.contract_id "FAILED_REPOSTED" step1.2
  let newC : Contract :=
    { contract_id := "contract-" ++ newUuid
      goal_id := orig.goal_id
      status := "OPEN"
      created_at := now
      title := orig.title ++ " (V2)"
      description := newDesc
      contract_type := orig.contract_type
      budget := orig.budget }
  (newC, { st2 with contracts := putContract newC st2.contracts })

/-- Lines 122-125 of process_evaluation: the reputation update happens
only when the winning submission carries a truthy agent_id. -/
def maybe_update_reputation (aid : Option String) (st : MarketState) : MarketState :=
  match aid with
  | some a => if a.isEmpty then st else update_agent_reputation a 1 st
  | none => st

/-- The nondeterministic environment of one process_evaluation invocation:
the judge-model outcome, the reformulation-model outcome, the fresh uuid
and the timestamp. -/
structure CriticEnv where
  judge : JudgeReply
  reformCacheReadOk : Bool
  reformReply : Option String
  newUuid : String
  now : String
deriving Repr, DecidableEq

/-- process_evaluation (lines 79-142): the core Critic state machine.
A raised ValueError / ClientError is rendered as the statusCode 500
response of the surrounding except clause. -/
def process_evaluation (env : CriticEnv) (cid : String) (st : MarketState) :
    ApiResponse × MarketState :=
  match get_contract st cid with
  | none =>
    ({ statusCode := 500, body := "Contract with ID " ++ cid ++ " not found." }, st)
  | some contract =>
    if contract.status != "OPEN" then
      ({ statusCode := 200,
         body := "Contract " ++ cid ++ " is not OPEN (current status: " ++
                 contract.status ++ "). No action taken." }, st)
    else
      let subs := get_submissions_for_contract st cid
      if subs.isEmpty then
        let r := reformulate_and_repost_contract env.reformCacheReadOk env.reformReply
                   env.newUuid env.now contract st
        ({ statusCode := 200,
           body := "Contract had no submissions and was reformulated: " ++ r.1.contract_id },
         r.2)
      else
        let enriched := enrich_submissions_with_reputation st.agents subs
        match select_winner env.judge contract enriched st with
        | (Except.error e, st1) => ({ statusCode := 500, body := e }, st1)
        | (Except.ok w, st1) =>
          match w.winning_submission_id with
          | none =>
            ({ statusCode := 500,
               body := "Critic model failed to return a winning_submission_id." }, st1)
          | some wid =>
            if wid.isEmpty then
              ({ statusCode := 500,
                 body := "Critic model failed to return a winning_submission_id." }, st1)
            else
              match enriched.find? (fun p => p.1.submission_id == wid) with
              | none =>
                ({ statusCode := 200,
                   body := "Successfully selected a winner and updated system state." },
                 update_contract_status cid "CLOSED" st1)
              | some winner =>
                let st2 := update_winner_submission wid st1
                let st3 := maybe_update_reputation winner.1.agent_id st2
                let st4 := save_final_result contract.goal_id contract winner.1 env.now st3
                let st5 := update_contract_status cid "CLOSED" st4
                ({ statusCode := 200,
                   body := "Successfully selected a winner and updated system state." },
                 st5)

/-- The request shape seen by the submissions_manager handler:
contract_id from the path, agent_id and submission_data from the parsed
body (absent keys are None). -/
structure SubmitEvent where
  contract_id : Option String
  agent_id : Option String
  submission_data : Option String
deriving Repr, DecidableEq

/-- put_item on the Submissions table (replaces the row with the same key)
and bumps the subPuts instrumentation counter. -/
def putSubmission (item : Submission) (st : MarketState) : MarketState :=
  { st with
      submissions :=
        item :: st.submissions.filter (fun s => s.submission_id != item.submission_id)
      subPuts := st.subPuts + 1 }

/-- submissions_manager handler (src/submissions_manager/app.py lines
18-101): validates the path and body, rejects missing (404) and non-OPEN
(403) contracts, otherwise writes the submission row with
is_winner = false and returns 201. -/
def submissions_handler (newUuid now : String) (ev : SubmitEvent) (st : MarketState) :
    ApiResponse × MarketState :=
  if !optTruthy ev.contract_id then
    ({ statusCode := 400, body := "contract_id is required in the path." }, st)
  else
    let cid := ev.contract_id.getD ""
    if !optTruthy ev.agent_id || !optTruthy ev.submission_data then
      ({ statusCode := 400,
         body := "Both agent_id and submission_data are required in the body." }, st)
    else
      match get_contract st cid with
      | none =>
        ({ statusCode := 404,
           body := "Contract with ID " ++ cid ++ " not found." }, st)
      | some c =>
        if c.status != "OPEN" then
          ({ statusCode := 403,
             body := "Contract with ID " ++ cid ++ " is closed and does not accept submissions." },
           st)
        else
          let item : Submission :=
            { submission_id := "sub-" ++ newUuid
              contract_id := cid
              agent_id := ev.agent_id
              submission_data := ev.submission_data.getD ""
              created_at := now
              is_winner := false }
          ({ statusCode := 201, body := "Submission received successfully." },
           putSubmission item st)

/-- Whether the submissions_manager handler accepts a request: the path
supplies a contract id, the body supplies agent_id and submission_data,
and the contract exists and is OPEN. -/
def acceptedSubmission (ev : SubmitEvent) (st : MarketState) : Bool :=
  optTruthy ev.contract_id && optTruthy ev.agent_id && optTruthy ev.submission_data &&
    (match get_contract st (ev.contract_id.getD "") with
     | some c => c.status == "OPEN"
     | none => false)

/-- The freelancer agent types the orchestrator can invoke. -/
inductive AgentTarget where
  | artist
  | copywriter
deriving Repr, DecidableEq

/-- A contract as returned by the open-contract listing consumed by the
orchestrator (a parsed JSON dict, so every field may be absent). -/
structure MarketplaceContract where
  contract_id : Option String
  contract_type : Option String
  description : Option String
deriving Repr, DecidableEq

/-- delegate_task (src/freelancer_orchestrator/app.py lines 76-106):
returns the asynchronous invocation performed for the contract
(target agent and payload fields), or none when the contract is skipped.
The dispatch table maps only IMAGE to the Artist and TEXT to the
Copywriter; any other contract_type falls into the unknown-type branch
and is skipped with a logged warning. -/
def delegate_task (c : MarketplaceContract) :
    Option (AgentTarget × String × String) :=
  if !(optTruthy c.contract_id && optTruthy c.contract_type && optTruthy c.description) then
    none
  else
    let cid := c.contract_id.getD ""
    let prompt := c.description.getD ""
    let ctype := c.contract_type.getD ""
    if ctype == "IMAGE" then some (AgentTarget.artist, prompt, cid)
    else if ctype == "TEXT" then some (AgentTarget.copywriter, prompt, cid)
    else none

/-- One orchestrator tick (handler lines 34-53) over an already-fetched
contract list: the asynchronous invocations issued, in order. -/
def orchestrator_tick (contracts : List MarketplaceContract) :
    List (AgentTarget × String × String) :=
  contracts.filterMap delegate_task

/-- Outcome of one generate_text call in the copywriter, after the
bracket-extraction parse of generate_and_parse_slogans (lines 136-149):
ok carries the parsed JSON array; parseFail covers a missing bracket pair,
a JSON decode error and a non-list parse (the loop then retries); fatal is
the ValueError raised by generate_text itself, which propagates. -/
inductive GenResult where
  | ok (slogans : List String)
  | parseFail
  | fatal
deriving Repr, DecidableEq

/-- The critique outcome of critique_slogans (lines 84-130): the function
never raises; parse failures surface as quality_score 1 and a missing
quality_score key as 0, both folded into the oracle value. -/
structure Critique where
  quality_score : Int
  justification : String
deriving Repr, DecidableEq

/-- generate_and_parse_slogans (lines 132-151) with max_retries = 2,
driven by the generation oracle genO indexed by the number of
generate_text calls made so far; returns the parsed list or the raised
ValueError, with the updated call count. -/
def generate_and_parse_slogans (genO : Nat → GenResult) (g : Nat) :
    Except String (List String) × Nat :=
  match genO g with
  | GenResult.fatal => (Except.error "Error in generate_text", g + 1)
  | GenResult.ok l => (Except.ok l, g + 1)
  | GenResult.parseFail =>
    match genO (g + 1) with
    | GenResult.fatal => (Except.error "Error in generate_text", g + 2)
    | GenResult.ok l => (Except.ok l, g + 2)
    | GenResult.parseFail =>
      (Except.error "Failed to get a valid JSON array from the model after 2 attempts.",
       g + 2)

/-- One critiqued cycle of the copywriter loop: the generated slogans and
the critique score they received. -/
structure CopyCycle where
  slogans : List String
  score : Int
deriving Repr, DecidableEq

/-- The observable outcome of one copywriter handler run: the submitted
text (ok) or the raised error, the number of generate_text calls, the
number of critique_slogans calls, and the critiqued cycles in order. -/
structure CopyRun where
  result : Except String String
  genCalls : Nat
  critCalls : Nat
  cycles : List CopyCycle
deriving Repr

/-- The self-correction while loop of the copywriter handler (lines
32-76), with remaining = max_attempts - attempts; critO is the critique
oracle indexed by the number of critique calls made so far.  An empty
parsed list skips the critique and retries (the continue branch); a score
of at least 7 accepts and submits the first slogan; otherwise the critique
justification is appended to the working prompt and the loop regenerates. -/
def copywriter_loop (genO : Nat → GenResult) (critO : Nat → Critique)
    (prompt : String) (remaining g cr : Nat) (cycles : List CopyCycle) : CopyRun :=
  match remaining with
  | 0 =>
    { result := Except.error "Agent failed to generate high-quality slogans after 2 attempts."
      genCalls := g, critCalls := cr, cycles := cycles }
  | n + 1 =>
    match generate_and_parse_slogans genO g with
    | (Except.error e, g2) =>
      { result := Except.error e, genCalls := g2, critCalls := cr, cycles := cycles }
    | (Except.ok l, g2) =>
      if l.isEmpty then
        copywriter_loop genO critO prompt n g2 cr cycles
      else
        let q := critO cr
        let cycles2 := cycles ++ [{ slogans := l, score := q.quality_score }]
        if 7 ≤ q.quality_score then
          { result := Except.ok (l.headD "No slogan generated.")
            genCalls := g2, critCalls := cr + 1, cycles := cycles2 }
        else
          copywriter_loop genO critO
            (prompt ++ "\n\nYour previous attempt was rated " ++
              toString q.quality_score ++ "/10. Critique: " ++ q.justification ++
              ". Please generate a much better, more creative set of slogans based on this feedback.")
            n g2 (cr + 1) cycles2

/-- The copywriter handler self-correction section (lines 32-78), from a
validated prompt, with max_attempts = 2.  A result of ok s means
submit_work was called with s (the first slogan of the accepted cycle);
an error result means no submission was made and the handler re-raised. -/
def copywriter_handler (genO : Nat → GenResult) (critO : Nat → Critique)
    (prompt : String) : CopyRun :=
  copywriter_loop genO critO prompt 2 0 0 []

/-- The winning submission id that process_evaluation extracts from the
select_winner outcome: none when select_winner raised, when the parsed
object has no winning_submission_id key, or when the value is falsy
(the `if not winning_submission_id` check of line 113). -/
def returnedWinnerId : Except String WinnerJson → Option String
  | Except.error _ => none
  | Except.ok w =>
    match w.winning_submission_id with
    | none => none
    | some s => if s.isEmpty then none else some s

/-- agents_manager registration (src/agents_manager/app.py lines 69-89):
put_item of a fresh agent row with reputation 0. -/
def register_agent (aid : String) (st : MarketState) : MarketState :=
  { st with agents :=
      { agent_id := aid, reputation := 0 } ::
        st.agents.filter (fun a => a.agent_id != aid) }

/-- Decomposer-style contract creation (src/goal_deconstructor/app.py
lines 164-177): put_item of a contract row with status OPEN and a fresh
contract-uuid id. -/
def create_contract (c : Contract) (st : MarketState) : MarketState :=
  { st with contracts := putContract c st.contracts }

/-- Number of submission rows for a contract id that carry
is_winner = true. -/
def winnerCount (st : MarketState) (cid : String) : Nat :=
  st.submissions.countP (fun s => s.contract_id == cid && s.is_winner)

/-- The claimed invariant: at most one winner row per contract id. -/
def AtMostOneWinner (st : MarketState) : Prop :=
  ∀ cid, winnerCount st cid ≤ 1

/-- Submission ids are pairwise distinct (they key the Submissions
table). -/
def SubIdsNodup (st : MarketState) : Prop :=
  (st.submissions.map (fun s => s.submission_id)).Nodup

/-- No submission of a still-OPEN contract is marked winner. -/
def OpenNoWinner (st : MarketState) : Prop :=
  ∀ c ∈ st.contracts, c.status = "OPEN" →
    ∀ s ∈ st.submissions, s.contract_id = c.contract_id → s.is_winner = false

/-- Every submission refers to an existing contract row. -/
def SubHasContract (st : MarketState) : Prop :=
  ∀ s ∈ st.submissions, ∃ c ∈ st.contracts, c.contract_id = s.contract_id

/-- The inductive invariant maintained by every system operation. -/
def Inv (st : MarketState) : Prop :=
  SubIdsNodup st ∧ OpenNoWinner st ∧ SubHasContract st ∧ AtMostOneWinner st

/-- One system operation, as the spec enumerates them: decomposer
contract creation, agent registration, submission creation through the
submissions_manager handler, and Critic evaluation (which subsumes winner
selection and reformulation).  uuid4 freshness is an environment
assumption and appears as a hypothesis where the operation generates an
id. -/
inductive Step : MarketState → MarketState → Prop where
  | create (st : MarketState) (c : Contract)
      (hOpen : c.status = "OPEN")
      (hFresh : ∀ c2 ∈ st.contracts, c2.contract_id ≠ c.contract_id) :
      Step st (create_contract c st)
  | register (st : MarketState) (aid : String) :
      Step st (register_agent aid st)
  | submit (st : MarketState) (newUuid now : String) (ev : SubmitEvent)
      (hFresh : ∀ s ∈ st.submissions, s.submission_id ≠ "sub-" ++ newUuid) :
      Step st (submissions_handler newUuid now ev st).2
  | evaluate (st : MarketState) (env : CriticEnv) (cid : String)
      (hFresh : ∀ c ∈ st.contracts, c.contract_id ≠ "contract-" ++ env.newUuid) :
      Step st (process_evaluation env cid st).2

/-- The empty initial deployment: no contracts, submissions, agents,
results or cache entries. -/
def initState : MarketState :=
  { contracts := [], submissions := [], agents := [], results := [],
    cache := [], bedrockCalls := 0, subPuts := 0 }

/-- States reachable from the empty deployment by system operations. -/
def Reachable (st : MarketState) : Prop :=
  Relation.ReflTransGen Step initState st

/-- A sample OPEN contract used to instantiate the theorems. -/
def cA : Contract :=
  { contract_id := "c-1", goal_id := some "g-1", status := "OPEN",
    title := "Logo design", description := "Design a coffee logo",
    contract_type := "IMAGE", budget := 30, created_at := "t0" }

/-- A sample CLOSED contract. -/
def cB : Contract :=
  { contract_id := "c-2", goal_id := some "g-1", status := "CLOSED",
    title := "Slogan", description := "Write a slogan",
    contract_type := "TEXT", budget := 10, created_at := "t0" }

/-- A sample submission for cA. -/
def sA : Submission :=
  { submission_id := "s-1", contract_id := "c-1", agent_id := some "a-1",
    submission_data := "art.png", created_at := "t1", is_winner := false }

/-- A sample registered agent. -/
def agA : Agent := { agent_id := "a-1", reputation := 0 }

/-- A sample state: one OPEN contract with one submission, empty cache. -/
def stA : MarketState :=
  { contracts := [cA], submissions := [sA], agents := [agA], results := [],
    cache := [], bedrockCalls := 0, subPuts := 0 }

/-- A sample state holding only the CLOSED contract cB. -/
def stB : MarketState :=
  { contracts := [cB], submissions := [], agents := [agA], results := [],
    cache := [], bedrockCalls := 0, subPuts := 0 }

/-- A sample state: one OPEN contract and no submissions at all. -/
def stC : MarketState :=
  { contracts := [cA], submissions := [], agents := [], results := [],
    cache := [], bedrockCalls := 0, subPuts := 0 }

/-- A sample parsed judge verdict naming submission s-1. -/
def wA : WinnerJson :=
  { winning_submission_id := some "s-1", justification := some "well composed" }

/-- A sample parsed judge verdict with no winning_submission_id key. -/
def wNone : WinnerJson :=
  { winning_submission_id := none, justification := some "undecided" }

/-- A sample Critic environment whose judge names s-1. -/
def envA : CriticEnv :=
  { judge := JudgeReply.ok wA, reformCacheReadOk := true, reformReply := none,
    newUuid := "u1", now := "t2" }

/-- A sample Critic environment whose judge returns no winner id. -/
def envNoWinner : CriticEnv :=
  { judge := JudgeReply.ok wNone, reformCacheReadOk := true, reformReply := none,
    newUuid := "u1", now := "t2" }

/-- A sample generation oracle: every generate_text call parses to the
same two slogans. -/
def genO7 : Nat → GenResult :=
  fun _ => GenResult.ok ["Brew boldly", "Wake the day"]

/-- A sample critique oracle: score 5 on the first critique, 8 on the
second. -/
def critO7 : Nat → Critique :=
  fun n => if n = 0 then { quality_score := 5, justification := "too plain" }
           else { quality_score := 8, justification := "crisp" }

/-- find? is unchanged by a filter that keeps every element satisfying the
search predicate. -/
theorem find?_filter_keep {α : Type} (p q : α → Bool) (l : List α)
    (h : ∀ a, p a = true → q a = true) : (l.filter q).find? p = l.find? p := by
  induction l with
  | nil => rfl
  | cons a t ih =>
    by_cases hp : p a = true
    · simp [List.filter_cons, h a hp, List.find?_cons, hp]
    · have hp2 : p a = false := by simpa using hp
      cases hq : q a <;> simp [List.filter_cons, hq, List.find?_cons, hp2, ih]

/-- find? by key commutes with a map that preserves the key. -/
theorem find?_map_key {α : Type} (f : α → α) (key : α → String) (k : String)
    (l : List α) (hf : ∀ a, key (f a) = key a) :
    (l.map f).find? (fun a => key a == k) = (l.find? (fun a => key a == k)).map f := by
  induction l with
  | nil => rfl
  | cons a t ih =>
    cases h : (key a == k) <;>
      simp [List.find?_cons, hf a, h, ih]

/-- countP respects pointwise equality of predicates on members. -/
theorem countP_congr_mem {α : Type} (p q : α → Bool) (l : List α)
    (h : ∀ a ∈ l, p a = q a) : l.countP p = l.countP q := by
  induction l with
  | nil => rfl
  | cons a t ih =>
    simp only [List.countP_cons, h a (List.mem_cons_self a t)]
    rw [ih (fun b hb => h b (List.mem_cons_of_mem a hb))]

/-- countP is monotone along pointwise implication on members. -/
theorem countP_le_of_imp {α : Type} (p q : α → Bool) (l : List α)
    (h : ∀ a ∈ l, p a = true → q a = true) : l.countP p ≤ l.countP q := by
  induction l with
  | nil => exact Nat.le_refl _
  | cons a t ih =>
    have ht : t.countP p ≤ t.countP q :=
      ih (fun b hb => h b (List.mem_cons_of_mem a hb))
    by_cases hp : p a = true
    · have hq := h a (List.mem_cons_self a t) hp
      simp only [List.countP_cons, hp, hq, if_true]
      omega
    · have hp2 : p a = false := by simpa using hp
      simp only [List.countP_cons, hp2, if_false]
      cases hq : q a <;> simp <;> omega

/-- In a list whose keys are pairwise distinct, at most one element
carries any given key. -/
theorem countP_key_le_one {α : Type} (key : α → String) (k : String) (l : List α)
    (h : (l.map key).Nodup) : l.countP (fun a => key a == k) ≤ 1 := by
  induction l with
  | nil => simp
  | cons a t ih =>
    simp only [List.map_cons, List.nodup_cons] at h
    by_cases hk : (key a == k) = true
    · have hka : key a = k := by simpa using hk
      have hzero : t.countP (fun b => key b == k) = 0 := by
        rw [List.countP_eq_zero]
        intro b hb hbk
        have hbk2 : key b = k := by simpa using hbk
        exact h.1 (hka ▸ hbk2 ▸ List.mem_map_of_mem key hb)
      simp only [List.countP_cons, hk, if_true, hzero]
      omega
    · have hk2 : (key a == k) = false := by simpa using hk
      simp only [List.countP_cons, hk2, if_false]
      simpa using ih h.2

/-- A put into the cache is immediately visible under its own key. -/
theorem lookupCache_putCache_self (h : String) (v : CacheVal)
    (cache : List (String × CacheVal)) :
    lookupCache (putCache h v cache) h = some v := by
  simp [lookupCache, putCache, List.find?_cons]

/-- select_winner touches only the cache and the bedrockCalls counter. -/
theorem select_winner_frame (reply : JudgeReply) (c : Contract)
    (subs : List (Submission × Int)) (st : MarketState) :
    ((select_winner reply c subs st).2).contracts = st.contracts ∧
    ((select_winner reply c subs st).2).submissions = st.submissions ∧
    ((select_winner reply c subs st).2).agents = st.agents ∧
    ((select_winner reply c subs st).2).results = st.results ∧
    ((select_winner reply c subs st).2).subPuts = st.subPuts := by
  unfold select_winner
  cases hl : lookupCache st.cache (sha256 (selectPrompt c subs)) with
  | some v => cases hv : v.asWinner <;> simp [hl, hv]
  | none => cases reply <;> simp [hl]

/-- reformulate_and_repost_contract touches only the contracts store, the
cache and the bedrockCalls counter. -/
theorem reformulate_frame (cacheReadOk : Bool) (reply : Option String)
    (newUuid now : String) (orig : Contract) (st : MarketState) :
    ((reformulate_and_repost_contract cacheReadOk reply newUuid now orig st).2).submissions
        = st.submissions ∧
    ((reformulate_and_repost_contract cacheReadOk reply newUuid now orig st).2).agents
        = st.agents ∧
    ((reformulate_and_repost_contract cacheReadOk reply newUuid now orig st).2).results
        = st.results ∧
    ((reformulate_and_repost_contract cacheReadOk reply newUuid now orig st).2).subPuts
        = st.subPuts := by
  unfold reformulate_and_repost_contract update_contract_status
  cases cacheReadOk with
  | false => simp
  | true =>
    cases hl : lookupCache st.cache (sha256 (reformPrompt orig.description)) with
    | some v => simp [hl]
    | none => cases reply <;> simp [hl]

/-- update_agent_reputation changes only the agents store. -/
theorem update_agent_reputation_submissions (aid : String) (score : Int) (st : MarketState) :
    (update_agent_reputation aid score st).submissions = st.submissions := by
  unfold update_agent_reputation; split <;> rfl

/-- update_agent_reputation changes only the agents store. -/
theorem update_agent_reputation_contracts (aid : String) (score : Int) (st : MarketState) :
    (update_agent_reputation aid score st).contracts = st.contracts := by
  unfold update_agent_reputation; split <;> rfl

/-- maybe_update_reputation changes only the agents store. -/
theorem maybe_update_reputation_submissions (aid : Option String) (st : MarketState) :
    (maybe_update_reputation aid st).submissions = st.submissions := by
  unfold maybe_update_reputation
  cases aid with
  | none => rfl
  | some a =>
    by_cases h : a.isEmpty <;>
      simp [h, update_agent_reputation_submissions]

/-- maybe_update_reputation changes only the agents store. -/
theorem maybe_update_reputation_contracts (aid : Option String) (st : MarketState) :
    (maybe_update_reputation aid st).contracts = st.contracts := by
  unfold maybe_update_reputation
  cases aid with
  | none => rfl
  | some a =>
    by_cases h : a.isEmpty <;>
      simp [h, update_agent_reputation_contracts]

/-- save_final_result changes only the results store. -/
theorem save_final_result_submissions (g : Option String) (c : Contract)
    (w : Submission) (now : String) (st : MarketState) :
    (save_final_result g c w now st).submissions = st.submissions := by
  unfold save_final_result
  cases g with
  | none => rfl
  | some g2 => by_cases h : g2.isEmpty <;> simp [h]

/-- save_final_result changes only the results store. -/
theorem save_final_result_contracts (g : Option String) (c : Contract)
    (w : Submission) (now : String) (st : MarketState) :
    (save_final_result g c w now st).contracts = st.contracts := by
  unfold save_final_result
  cases g with
  | none => rfl
  | some g2 => by_cases h : g2.isEmpty <;> simp [h]

/-- The invariant depends only on the contracts and submissions stores. -/
theorem inv_of_frame (st' st : MarketState)
    (hc : st'.contracts = st.contracts) (hs : st'.submissions = st.submissions)
    (h : Inv st) : Inv st' := by
  obtain ⟨h1, h2, h3, h4⟩ := h
  refine ⟨?_, ?_, ?_, ?_⟩
  · unfold SubIdsNodup; rw [hs]; exact h1
  · unfold OpenNoWinner; rw [hc, hs]; exact h2
  · unfold SubHasContract; rw [hc, hs]; exact h3
  · intro cid2
    unfold winnerCount
    rw [hs]
    exact h4 cid2

/-- putContract preserves the presence of every contract id. -/
theorem putContract_preserves_id (c : Contract) (l : List Contract) (x : String)
    (h : ∃ c2 ∈ l, c2.contract_id = x) :
    ∃ c2 ∈ putContract c l, c2.contract_id = x := by
  by_cases hx : x = c.contract_id
  · exact ⟨c, List.mem_cons_self c _, hx.symm⟩
  · obtain ⟨c2, hc2, hid⟩ := h
    refine ⟨c2, List.mem_cons_of_mem c (List.mem_filter.mpr ⟨hc2, ?_⟩), hid⟩
    simp only [bne_iff_ne, ne_eq, hid]
    exact fun he => hx he

/-- A status-only rewrite of the contracts store preserves every id. -/
theorem map_status_preserves_id (l : List Contract) (cid status x : String)
    (h : ∃ c2 ∈ l, c2.contract_id = x) :
    ∃ c2 ∈ l.map (fun c => if c.contract_id == cid then { c with status := status } else c),
      c2.contract_id = x := by
  obtain ⟨c2, hc2, hid⟩ := h
  refine ⟨if c2.contract_id == cid then { c2 with status := status } else c2,
    List.mem_map_of_mem _ hc2, ?_⟩
  by_cases hcc : (c2.contract_id == cid) = true
  · rw [if_pos hcc]; exact hid
  · rw [if_neg hcc]; exact hid

/-- Inv is preserved by writing a fresh non-winner submission row for an
existing contract. -/
theorem inv_putSubmission (st : MarketState) (item : Submission)
    (hw : item.is_winner = false)
    (hc : ∃ c ∈ st.contracts, c.contract_id = item.contract_id)
    (hInv : Inv st) : Inv (putSubmission item st) := by
  obtain ⟨hNodup, hOpenNW, hHas, hAMO⟩ := hInv
  refine ⟨?_, ?_, ?_, ?_⟩
  · unfold SubIdsNodup putSubmission
    simp only [List.map_cons, List.nodup_cons]
    constructor
    · intro hmem
      obtain ⟨s, hs, hid⟩ := List.mem_map.mp hmem
      have hne := (List.mem_filter.mp hs).2
      rw [bne_iff_ne] at hne
      exact hne hid
    · exact hNodup.sublist ((List.filter_sublist _).map _)
  · intro c2 hc2 hopen s hs hcid
    rcases List.mem_cons.mp hs with rfl | hmem
    · exact hw
    · exact hOpenNW c2 hc2 hopen s (List.mem_of_mem_filter hmem) hcid
  · intro s hs
    rcases List.mem_cons.mp hs with rfl | hmem
    · exact hc
    · exact hHas s (List.mem_of_mem_filter hmem)
  · intro cid2
    unfold winnerCount putSubmission
    simp only [List.countP_cons, hw, Bool.and_false, if_false]
    calc (st.submissions.filter
            (fun s => s.submission_id != item.submission_id)).countP
              (fun s => s.contract_id == cid2 && s.is_winner) + 0
        ≤ st.submissions.countP (fun s => s.contract_id == cid2 && s.is_winner) := by
          simpa using (List.filter_sublist st.submissions).countP_le _
      _ ≤ 1 := hAMO cid2

/-- Inv is preserved by the submissions_manager handler. -/
theorem inv_submit (st : MarketState) (newUuid now : String) (ev : SubmitEvent)
    (hInv : Inv st) : Inv (submissions_handler newUuid now ev st).2 := by
  unfold submissions_handler
  by_cases h1 : optTruthy ev.contract_id
  · simp only [h1, Bool.not_true, Bool.false_eq_true, if_false]
    by_cases h2 : (!optTruthy ev.agent_id || !optTruthy ev.submission_data) = true
    · simp only [h2, if_true]; exact hInv
    · simp only [h2, if_false]
      cases hg : get_contract st (ev.contract_id.getD "") with
      | none => exact hInv
      | some c =>
        by_cases h3 : c.status = "OPEN"
        · simp only [h3, bne_self_eq_false, if_false]
          refine inv_putSubmission st _ rfl ?_ hInv
          exact ⟨c, List.mem_of_find?_eq_some hg, by
            have := List.find?_some hg
            simpa using this⟩
        · have h4 : (c.status != "OPEN") = true := by
            rw [bne_iff_ne]; exact h3
          simp only [h4, if_true]; exact hInv
  · simp only [h1, Bool.not_false, if_true]; exact hInv

/-- Inv is preserved by decomposer contract creation with a fresh id. -/
theorem inv_create (st : MarketState) (c : Contract)
    (hOpen : c.status = "OPEN")
    (hFresh : ∀ c2 ∈ st.contracts, c2.contract_id ≠ c.contract_id)
    (hInv : Inv st) : Inv (create_contract c st) := by
  obtain ⟨hNodup, hOpenNW, hHas, hAMO⟩ := hInv
  refine ⟨hNodup, ?_, ?_, hAMO⟩
  · intro c2 hc2 hopen s hs hcid
    rcases List.mem_cons.mp hc2 with rfl | hmem
    · obtain ⟨c3, hc3, hc3id⟩ := hHas s hs
      exact absurd (hc3id.trans hcid) (hFresh c3 hc3)
    · exact hOpenNW c2 (List.mem_of_mem_filter hmem) hopen s hs hcid
  · intro s hs
    exact putContract_preserves_id c st.contracts s.contract_id (hHas s hs)

/-- Inv is preserved by agent registration (agents store only). -/
theorem inv_register (st : MarketState) (aid : String)
    (hInv : Inv st) : Inv (register_agent aid st) :=
  inv_of_frame _ st rfl rfl hInv

/-- The contracts store after reformulation: the original id is marked
FAILED_REPOSTED and the fresh contract is put on top. -/
theorem reformulate_contracts_eq (cacheReadOk : Bool) (reply : Option String)
    (newUuid now : String) (orig : Contract) (st : MarketState) :
    ((reformulate_and_repost_contract cacheReadOk reply newUuid now orig st).2).contracts =
      putContract (reformulate_and_repost_contract cacheReadOk reply newUuid now orig st).1
        (st.contracts.map (fun c =>
          if c.contract_id == orig.contract_id then { c with status := "FAILED_REPOSTED" }
          else c)) := by
  unfold reformulate_and_repost_contract update_contract_status
  cases cacheReadOk with
  | false => simp
  | true =>
    cases hl : lookupCache st.cache (sha256 (reformPrompt orig.description)) with
    | some v => simp [hl]
    | none => cases reply <;> simp [hl]

/-- The fields of the reposted contract that are independent of the
model and cache outcome. -/
theorem reformulate_newC_fields (cacheReadOk : Bool) (reply : Option String)
    (newUuid now : String) (orig : Contract) (st : MarketState) :
    ((reformulate_and_repost_contract cacheReadOk reply newUuid now orig st).1).contract_id
        = "contract-" ++ newUuid ∧
    ((reformulate_and_repost_contract cacheReadOk reply newUuid now orig st).1).status
        = "OPEN" ∧
    ((reformulate_and_repost_contract cacheReadOk reply newUuid now orig st).1).goal_id
        = orig.goal_id ∧
    ((reformulate_and_repost_contract cacheReadOk reply newUuid now orig st).1).title
        = orig.title ++ " (V2)" ∧
    ((reformulate_and_repost_contract cacheReadOk reply newUuid now orig st).1).contract_type
        = orig.contract_type ∧
    ((reformulate_and_repost_contract cacheReadOk reply newUuid now orig st).1).budget
        = orig.budget ∧
    ((reformulate_and_repost_contract cacheReadOk reply newUuid now orig st).1).created_at
        = now := by
  unfold reformulate_and_repost_contract
  cases cacheReadOk with
  | false => simp
  | true =>
    cases hl : lookupCache st.cache (sha256 (reformPrompt orig.description)) with
    | some v => simp [hl]
    | none => cases reply <;> simp [hl]

/-- When the cache read errors, or the cache misses and the model branch
fails, the reposted description is the fallback text. -/
theorem reformulate_desc_failure (cacheReadOk : Bool) (reply : Option String)
    (newUuid now : String) (orig : Contract) (st : MarketState)
    (h : cacheReadOk = false ∨
      (lookupCache st.cache (sha256 (reformPrompt orig.description)) = none ∧ reply = none)) :
    ((reformulate_and_repost_contract cacheReadOk reply newUuid now orig st).1).description
        = reformFallback orig.description := by
  unfold reformulate_and_repost_contract
  rcases h with h | ⟨hl, hr⟩
  · subst h; simp
  · subst hr
    cases cacheReadOk <;> simp [hl]

/-- Inv is preserved by reformulation with a fresh contract id. -/
theorem inv_reformulate (st : MarketState) (orig : Contract)
    (cacheReadOk : Bool) (reply : Option String) (newUuid now : String)
    (hFresh : ∀ c ∈ st.contracts, c.contract_id ≠ "contract-" ++ newUuid)
    (hInv : Inv st) :
    Inv (reformulate_and_repost_contract cacheReadOk reply newUuid now orig st).2 := by
  obtain ⟨hNodup, hOpenNW, hHas, hAMO⟩ := hInv
  have hframe := reformulate_frame cacheReadOk reply newUuid now orig st
  have hcons := reformulate_contracts_eq cacheReadOk reply newUuid now orig st
  have hfields := reformulate_newC_fields cacheReadOk reply newUuid now orig st
  refine ⟨?_, ?_, ?_, ?_⟩
  · unfold SubIdsNodup; rw [hframe.1]; exact hNodup
  · intro c2 hc2 hopen s hs hcid
    rw [hframe.1] at hs
    rw [hcons] at hc2
    rcases List.mem_cons.mp hc2 with rfl | hmem
    · obtain ⟨c3, hc3, hc3id⟩ := hHas s hs
      have hEq := hc3id.trans hcid
      rw [hfields.1] at hEq
      exact absurd hEq (hFresh c3 hc3)
    · have hmem2 := List.mem_of_mem_filter hmem
      obtain ⟨c0, hc0, hc0eq⟩ := List.mem_map.mp hmem2
      by_cases hcc : (c0.contract_id == orig.contract_id) = true
      · rw [if_pos hcc] at hc0eq
        rw [← hc0eq] at hopen
        simp at hopen
      · rw [if_neg hcc] at hc0eq
        subst hc0eq
        exact hOpenNW c0 hc0 hopen s hs hcid
  · intro s hs
    rw [hframe.1] at hs
    rw [hcons]
    exact putContract_preserves_id _ _ _
      (map_status_preserves_id st.contracts orig.contract_id "FAILED_REPOSTED"
        s.contract_id (hHas s hs))
  · intro cid2
    unfold winnerCount
    rw [hframe.1]
    exact hAMO cid2

/-- Inv is preserved by a status-only close of a contract. -/
theorem inv_close (st : MarketState) (cid : String) (st2 : MarketState)
    (hsubs : st2.submissions = st.submissions)
    (hcons : st2.contracts = st.contracts.map (fun c =>
      if c.contract_id == cid then { c with status := "CLOSED" } else c))
    (hInv : Inv st) : Inv st2 := by
  obtain ⟨hNodup, hOpenNW, hHas, hAMO⟩ := hInv
  refine ⟨?_, ?_, ?_, ?_⟩
  · unfold SubIdsNodup; rw [hsubs]; exact hNodup
  · intro c2 hc2 hopen s hs hcid2
    rw [hcons] at hc2; rw [hsubs] at hs
    obtain ⟨c0, hc0, hc0eq⟩ := List.mem_map.mp hc2
    by_cases hcc : (c0.contract_id == cid) = true
    · rw [if_pos hcc] at hc0eq; rw [← hc0eq] at hopen; simp at hopen
    · rw [if_neg hcc] at hc0eq; subst hc0eq
      exact hOpenNW c0 hc0 hopen s hs hcid2
  · intro s hs
    rw [hsubs] at hs; rw [hcons]
    exact map_status_preserves_id _ _ _ _ (hHas s hs)
  · intro cid2; unfold winnerCount; rw [hsubs]; exact hAMO cid2

/-- Elements of a list with pairwise-distinct keys are equal when their
keys agree. -/
theorem nodup_key_inj {α : Type} (key : α → String) (l : List α)
    (h : (l.map key).Nodup) (a b : α) (ha : a ∈ l) (hb : b ∈ l)
    (hk : key a = key b) : a = b :=
  List.inj_on_of_nodup_map h ha hb hk

/-- Inv is preserved by marking, for an OPEN contract, the winning
submission (a row of that contract) and closing the contract. -/
theorem inv_mark_and_close (st : MarketState) (cid wid : String) (c : Contract)
    (hc : get_contract st cid = some c) (hcOpen : c.status = "OPEN")
    (sw : Submission) (hswMem : sw ∈ st.submissions)
    (hswCid : sw.contract_id = cid) (hswId : sw.submission_id = wid)
    (hInv : Inv st) (st2 : MarketState)
    (hsubs : st2.submissions = st.submissions.map (fun s =>
      if s.submission_id == wid then { s with is_winner := true } else s))
    (hcons : st2.contracts = st.contracts.map (fun c2 =>
      if c2.contract_id == cid then { c2 with status := "CLOSED" } else c2)) :
    Inv st2 := by
  obtain ⟨hNodup, hOpenNW, hHas, hAMO⟩ := hInv
  have hNodup2 : (st.submissions.map (fun s => s.submission_id)).Nodup := hNodup
  have hcMem : c ∈ st.contracts := List.mem_of_find?_eq_some hc
  have hcId : c.contract_id = cid := by simpa using List.find?_some hc
  have hkey : ∀ s : Submission,
      (if s.submission_id == wid then { s with is_winner := true } else s).submission_id
        = s.submission_id := by
    intro s
    by_cases h : (s.submission_id == wid) = true
    · rw [if_pos h]
    · rw [if_neg h]
  have hcidkey : ∀ s : Submission,
      (if s.submission_id == wid then { s with is_winner := true } else s).contract_id
        = s.contract_id := by
    intro s
    by_cases h : (s.submission_id == wid) = true
    · rw [if_pos h]
    · rw [if_neg h]
  refine ⟨?_, ?_, ?_, ?_⟩
  · unfold SubIdsNodup
    rw [hsubs]
    have hmapeq : (st.submissions.map (fun s =>
        if s.submission_id == wid then { s with is_winner := true } else s)).map
          (fun s => s.submission_id) = st.submissions.map (fun s => s.submission_id) := by
      rw [List.map_map]
      exact List.map_congr_left (fun s _ => hkey s)
    rw [hmapeq]
    exact hNodup2
  · intro c2 hc2 hopen s2 hs2 hcid2
    rw [hcons] at hc2; rw [hsubs] at hs2
    obtain ⟨c0, hc0, hc0eq⟩ := List.mem_map.mp hc2
    by_cases hcc : (c0.contract_id == cid) = true
    · rw [if_pos hcc] at hc0eq; rw [← hc0eq] at hopen; simp at hopen
    · rw [if_neg hcc] at hc0eq; subst hc0eq
      obtain ⟨s0, hs0, hs0eq⟩ := List.mem_map.mp hs2
      by_cases hsid : (s0.submission_id == wid) = true
      · have hs0w : s0 = sw := by
          apply nodup_key_inj (fun s => s.submission_id) st.submissions hNodup2 s0 sw hs0 hswMem
          have hbid : s0.submission_id = wid := by simpa using hsid
          rw [hbid, hswId]
        have hcid0 : s0.contract_id = cid := by rw [hs0w]; exact hswCid
        rw [if_pos hsid] at hs0eq
        have hSameCid : s2.contract_id = s0.contract_id := by rw [← hs0eq]
        have hne : c0.contract_id ≠ cid := by simpa using hcc
        exact absurd (hcid2.symm.trans (hSameCid.trans hcid0)) hne
      · rw [if_neg hsid] at hs0eq; subst hs0eq
        exact hOpenNW c0 hc0 hopen s0 hs0 hcid2
  · intro s2 hs2
    rw [hsubs] at hs2
    obtain ⟨s0, hs0, hs0eq⟩ := List.mem_map.mp hs2
    have hSameCid : s2.contract_id = s0.contract_id := by rw [← hs0eq, hcidkey]
    rw [hcons, hSameCid]
    exact map_status_preserves_id _ _ _ _ (hHas s0 hs0)
  · intro cid2
    unfold winnerCount
    rw [hsubs, List.countP_map]
    by_cases hcid2 : cid2 = cid
    · subst hcid2
      have hle : st.submissions.countP
            ((fun s => s.contract_id == cid2 && s.is_winner) ∘ (fun s =>
              if s.submission_id == wid then { s with is_winner := true } else s))
          ≤ st.submissions.countP (fun s => s.submission_id == wid) := by
        apply countP_le_of_imp
        intro s hs hp
        simp only [Function.comp_apply] at hp
        by_cases hsid : (s.submission_id == wid) = true
        · exact hsid
        · rw [if_neg hsid] at hp
          have hand := hp
          rw [Bool.and_eq_true] at hand
          have hpcid : s.contract_id = cid2 := by simpa using hand.1
          have hfalse := hOpenNW c hcMem hcOpen s hs (hpcid.trans hcId.symm)
          rw [hfalse] at hand
          exact absurd hand.2 (by simp)
      exact hle.trans (countP_key_le_one (fun s => s.submission_id) wid st.submissions hNodup2)
    · have heq : st.submissions.countP
            ((fun s => s.contract_id == cid2 && s.is_winner) ∘ (fun s =>
              if s.submission_id == wid then { s with is_winner := true } else s))
          = st.submissions.countP (fun s => s.contract_id == cid2 && s.is_winner) := by
        apply countP_congr_mem
        intro s hs
        simp only [Function.comp_apply]
        by_cases hsid : (s.submission_id == wid) = true
        · have hs0w : s = sw := by
            apply nodup_key_inj (fun s => s.submission_id) st.submissions hNodup2 s sw hs hswMem
            have hbid : s.submission_id = wid := by simpa using hsid
            rw [hbid, hswId]
          have hscid : s.contract_id = cid := by rw [hs0w]; exact hswCid
          have hcc : (s.contract_id == cid2) = false := by
            rw [hscid]
            simp only [beq_eq_false_iff_ne, ne_eq]
            exact fun h => hcid2 h.symm
          rw [if_pos hsid]
          simp [hcc]
        · rw [if_neg hsid]
      rw [heq]
      exact hAMO cid2

/-- Inv is preserved by a Critic evaluation invocation (any branch). -/
theorem inv_evaluate (st : MarketState) (env : CriticEnv) (cid : String)
    (hFresh : ∀ c ∈ st.contracts, c.contract_id ≠ "contract-" ++ env.newUuid)
    (hInv : Inv st) : Inv (process_evaluation env cid st).2 := by
  unfold process_evaluation
  split
  · exact hInv
  rename_i contract hg
  split
  · exact hInv
  rename_i hstB
  have hst : contract.status = "OPEN" := by
    by_contra hne
    exact hstB (bne_iff_ne.mpr hne)
  dsimp only
  split
  · exact inv_reformulate st contract env.reformCacheReadOk env.reformReply
      env.newUuid env.now hFresh hInv
  rename_i hsubsne
  split
  · rename_i e st1 hsel
    have hfr := select_winner_frame env.judge contract
      (enrich_submissions_with_reputation st.agents
        (get_submissions_for_contract st cid)) st
    rw [hsel] at hfr
    exact inv_of_frame st1 st hfr.1 hfr.2.1 hInv
  rename_i w st1 hsel
  have hfr := select_winner_frame env.judge contract
    (enrich_submissions_with_reputation st.agents
      (get_submissions_for_contract st cid)) st
  rw [hsel] at hfr
  have hInv1 : Inv st1 := inv_of_frame st1 st hfr.1 hfr.2.1 hInv
  split
  · exact hInv1
  rename_i wid hwid
  split
  · exact hInv1
  rename_i hwe
  split
  · refine inv_close st cid _ ?_ ?_ hInv
    · show st1.submissions = st.submissions
      exact hfr.2.1
    · show st1.contracts.map _ = st.contracts.map _
      rw [hfr.1]
  rename_i winner hfind
  have hwMem := List.mem_of_find?_eq_some hfind
  have hwPred : (winner.1.submission_id == wid) = true := by
    simpa using List.find?_some hfind
  obtain ⟨s0, hs0, hs0eq⟩ := List.mem_map.mp hwMem
  have hw1 : winner.1 = s0 := by rw [← hs0eq]
  have hs0f := List.mem_filter.mp hs0
  refine inv_mark_and_close st cid wid contract hg hst winner.1
    ?_ ?_ ?_ hInv _ ?_ ?_
  · rw [hw1]; exact hs0f.1
  · rw [hw1]; simpa using hs0f.2
  · simpa using hwPred
  · show (save_final_result contract.goal_id contract winner.1 env.now
        (maybe_update_reputation winner.1.agent_id
          (update_winner_submission wid st1))).submissions =
      st.submissions.map _
    rw [save_final_result_submissions, maybe_update_reputation_submissions]
    show st1.submissions.map _ = st.submissions.map _
    rw [hfr.2.1]
  · show ((save_final_result contract.goal_id contract winner.1 env.now
        (maybe_update_reputation winner.1.agent_id
          (update_winner_submission wid st1))).contracts).map _ =
      st.contracts.map _
    rw [save_final_result_contracts, maybe_update_reputation_contracts]
    show st1.contracts.map _ = st.contracts.map _
    rw [hfr.1]

/-- Every system operation preserves the invariant. -/
theorem inv_step (st st2 : MarketState) (h : Step st st2) (hInv : Inv st) : Inv st2 := by
  cases h with
  | create c hOpen hFresh => exact inv_create st c hOpen hFresh hInv
  | register aid => exact inv_register st aid hInv
  | submit newUuid now ev hFresh => exact inv_submit st newUuid now ev hInv
  | evaluate env cid hFresh => exact inv_evaluate st env cid hFresh hInv

/-- The empty deployment satisfies the invariant. -/
theorem inv_initState : Inv initState := by
  refine ⟨List.nodup_nil, ?_, ?_, ?_⟩
  · intro c hc
    exact absurd hc (List.not_mem_nil c)
  · intro s hs
    exact absurd hs (List.not_mem_nil s)
  · intro cid
    exact Nat.zero_le 1

/-- Every reachable state satisfies the invariant. -/
theorem inv_reachable (st : MarketState) (h : Reachable st) : Inv st := by
  unfold Reachable at h
  induction h with
  | refl => exact inv_initState
  | tail hsteps hstep ih => exact inv_step _ _ hstep ih

/-- save_final_result changes only the results store. -/
theorem save_final_result_agents (g : Option String) (c : Contract)
    (w : Submission) (now : String) (st : MarketState) :
    (save_final_result g c w now st).agents = st.agents := by
  unfold save_final_result
  cases g with
  | none => rfl
  | some g2 => by_cases h : g2.isEmpty <;> simp [h]

/-- The Result row written for a truthy goal id. -/
theorem save_final_result_results_some (g : String) (c : Contract)
    (w : Submission) (now : String) (st : MarketState) (hg : g.isEmpty = false) :
    (save_final_result (some g) c w now st).results =
      { goal_id := g, contract_id := c.contract_id,
        winning_submission_id := w.submission_id,
        winning_agent_id := w.agent_id,
        submission_data := w.submission_data,
        contract_type := c.contract_type,
        evaluated_at := now } :: st.results := by
  unfold save_final_result
  simp [hg]

/-- update_agent_reputation changes only the agents store. -/
theorem update_agent_reputation_results (aid : String) (score : Int) (st : MarketState) :
    (update_agent_reputation aid score st).results = st.results := by
  unfold update_agent_reputation; split <;> rfl

/-- maybe_update_reputation changes only the agents store. -/
theorem maybe_update_reputation_results (aid : Option String) (st : MarketState) :
    (maybe_update_reputation aid st).results = st.results := by
  unfold maybe_update_reputation
  cases aid with
  | none => rfl
  | some a =>
    by_cases h : a.isEmpty <;> simp [h, update_agent_reputation_results]

/-- For a truthy agent id the reputation update is the atomic increment. -/
theorem maybe_update_reputation_some (aid : String) (st : MarketState)
    (h : aid.isEmpty = false) :
    maybe_update_reputation (some aid) st = update_agent_reputation aid 1 st := by
  unfold maybe_update_reputation
  simp [h]

/-- After the atomic increment, the looked-up agent row carries its old
reputation plus the increment. -/
theorem update_agent_reputation_find (aid : String) (score : Int) (st : MarketState)
    (a : Agent)
    (ha : st.agents.find? (fun ag => ag.agent_id == aid) = some a) :
    (update_agent_reputation aid score st).agents.find? (fun ag => ag.agent_id == aid)
      = some { a with reputation := a.reputation + score } := by
  have hmem := List.mem_of_find?_eq_some ha
  have hpred : (a.agent_id == aid) = true := by simpa using List.find?_some ha
  have hany : st.agents.any (fun ag => ag.agent_id == aid) = true :=
    List.any_eq_true.mpr ⟨a, hmem, hpred⟩
  have hf : ∀ ag : Agent,
      (if ag.agent_id == aid then { ag with reputation := ag.reputation + score }
       else ag).agent_id = ag.agent_id := by
    intro ag
    by_cases h : (ag.agent_id == aid) = true
    · rw [if_pos h]
    · rw [if_neg h]
  unfold update_agent_reputation
  rw [if_pos hany]
  show (st.agents.map _).find? _ = _
  rw [find?_map_key _ (fun ag => ag.agent_id) aid st.agents hf, ha]
  show some (if (a.agent_id == aid) = true
      then { agent_id := a.agent_id, reputation := a.reputation + score } else a) = _
  rw [if_pos hpred]

/-- generate_and_parse_slogans makes at most two generate_text calls. -/
theorem gen_parse_calls_le (genO : Nat → GenResult) (g : Nat) :
    (generate_and_parse_slogans genO g).2 ≤ g + 2 := by
  unfold generate_and_parse_slogans
  cases h : genO g with
  | fatal => simp
  | ok l => simp
  | parseFail =>
    cases h2 : genO (g + 1) with
    | fatal => simp
    | ok l => simp
    | parseFail => simp

/-- Behaviour of the copywriter self-correction loop, for every remaining
attempt budget: the loop critiques at most `remaining` more times, makes
at most two generation calls per attempt, and accepts only a cycle whose
critique score reaches 7, submitting the first slogan of that cycle. -/
theorem copywriter_loop_spec (genO : Nat → GenResult) (critO : Nat → Critique) :
    ∀ (remaining : Nat) (prompt : String) (g cr : Nat) (cycles : List CopyCycle),
    (copywriter_loop genO critO prompt remaining g cr cycles).critCalls ≤ cr + remaining ∧
    (copywriter_loop genO critO prompt remaining g cr cycles).genCalls ≤ g + 2 * remaining ∧
    (copywriter_loop genO critO prompt remaining g cr cycles).cycles.length
        ≤ cycles.length + remaining ∧
    (∀ s, (copywriter_loop genO critO prompt remaining g cr cycles).result = Except.ok s →
      ∃ l q, (copywriter_loop genO critO prompt remaining g cr cycles).cycles.getLast?
          = some { slogans := l, score := q } ∧ 7 ≤ q ∧ l ≠ [] ∧
        s = l.headD "No slogan generated.") := by
  intro remaining
  induction remaining with
  | zero =>
    intro prompt g cr cycles
    refine ⟨Nat.le_refl _, by simp [copywriter_loop], by simp [copywriter_loop], ?_⟩
    intro s hs
    exact absurd hs (by simp [copywriter_loop])
  | succ n ih =>
    intro prompt g cr cycles
    have hgle := gen_parse_calls_le genO g
    rw [copywriter_loop]
    cases hgen : generate_and_parse_slogans genO g with
    | mk r g2 =>
      rw [hgen] at hgle
      dsimp only at hgle
      cases r with
      | error e =>
        dsimp only
        refine ⟨Nat.le_add_right cr (n+1), by omega, Nat.le_add_right _ _, ?_⟩
        intro s hs
        exact absurd hs (by simp)
      | ok l =>
        dsimp only
        by_cases hle : l.isEmpty = true
        · rw [if_pos hle]
          obtain ⟨i1, i2, i3, i4⟩ := ih prompt g2 cr cycles
          refine ⟨i1.trans (by omega), i2.trans (by omega), i3.trans (by omega), i4⟩
        · rw [if_neg hle]
          by_cases hq : 7 ≤ (critO cr).quality_score
          · rw [if_pos hq]
            refine ⟨by dsimp only; omega, by dsimp only; omega,
              by simp only [List.length_append, List.length_cons, List.length_nil]; omega, ?_⟩
            intro s hs
            refine ⟨l, (critO cr).quality_score, ?_, hq, ?_, ?_⟩
            · simp [List.getLast?_concat]
            · intro he
              subst he
              simp at hle
            · injection hs with hs2
              exact hs2.symm
          · rw [if_neg hq]
            obtain ⟨i1, i2, i3, i4⟩ := ih
              (prompt ++ "\n\nYour previous attempt was rated " ++
                toString (critO cr).quality_score ++ "/10. Critique: " ++
                (critO cr).justification ++
                ". Please generate a much better, more creative set of slogans based on this feedback.")
              g2 (cr + 1) (cycles ++ [{ slogans := l, score := (critO cr).quality_score }])
            refine ⟨i1.trans (by omega), i2.trans (by omega), ?_, i4⟩
            calc _ ≤ (cycles ++ [({ slogans := l, score := (critO cr).quality_score } : CopyCycle)]).length + n := i3
              _ ≤ cycles.length + (n + 1) := by
                simp only [List.length_append, List.length_cons, List.length_nil]
                omega

/-- C2: for every existing contract whose status is not OPEN, invoking
evaluation is a no-op: the returned response is a success (statusCode
200) and the state — all five stores and the backend-call counter — is
unchanged, so no store is mutated and no model call is made. -/
theorem claim_closed_contract_noop (env : CriticEnv) (cid : String)
    (st : MarketState) (contract : Contract)
    (hg : get_contract st cid = some contract)
    (hst : contract.status ≠ "OPEN") :
    (process_evaluation env cid st).1.statusCode = 200 ∧
    (process_evaluation env cid st).2 = st := by
  unfold process_evaluation
  split
  · rename_i heq
    rw [hg] at heq
    cases heq
  rename_i contract2 heq
  rw [hg] at heq
  injection heq with heq2
  subst heq2
  rw [if_pos (bne_iff_ne.mpr hst)]
  exact ⟨rfl, rfl⟩

/-- Witness for C2: evaluating the CLOSED contract c-2 in stB returns 200
and leaves the state untouched. -/
theorem claim_closed_contract_noop_witness :
    get_contract stB "c-2" = some cB ∧ cB.status ≠ "OPEN" ∧
    (process_evaluation envA "c-2" stB).1.statusCode = 200 ∧
    (process_evaluation envA "c-2" stB).2 = stB :=
  ⟨rfl, by decide,
   (claim_closed_contract_noop envA "c-2" stB cB rfl (by decide)).1,
   (claim_closed_contract_noop envA "c-2" stB cB rfl (by decide)).2⟩

/-- C3: with a fixed contract and fixed enriched submission set, a first
select_winner invocation on a cache miss parses the judge verdict, stores
it under the prompt fingerprint, and a second invocation (whatever the
backend would now reply) returns the stored verdict with the state — in
particular the backend-call counter — unchanged. -/
theorem claim_select_winner_cache_idempotent (c : Contract)
    (subs : List (Submission × Int)) (st : MarketState) (w : WinnerJson)
    (reply2 : JudgeReply)
    (hmiss : lookupCache st.cache (sha256 (selectPrompt c subs)) = none) :
    (select_winner (JudgeReply.ok w) c subs st).1 = Except.ok w ∧
    lookupCache ((select_winner (JudgeReply.ok w) c subs st).2).cache
        (sha256 (selectPrompt c subs))
      = some { text := dumpsWinner w, asWinner := some w } ∧
    select_winner reply2 c subs ((select_winner (JudgeReply.ok w) c subs st).2)
      = (Except.ok w, (select_winner (JudgeReply.ok w) c subs st).2) := by
  have h1 : select_winner (JudgeReply.ok w) c subs st =
      (Except.ok w,
        { st with bedrockCalls := st.bedrockCalls + 1,
                  cache := putCache (sha256 (selectPrompt c subs))
                    { text := dumpsWinner w, asWinner := some w } st.cache }) := by
    unfold select_winner
    dsimp only
    rw [hmiss]
  rw [h1]
  refine ⟨rfl, ?_, ?_⟩
  · exact lookupCache_putCache_self _ _ _
  · unfold select_winner
    dsimp only
    rw [lookupCache_putCache_self]

/-- Witness for C3: a concrete first evaluation of cA with submission set
[(sA, 0)] on the empty cache, repeated with a backend that would now
error, returns the same verdict and does not touch the state. -/
theorem claim_select_winner_cache_idempotent_witness :
    lookupCache stA.cache (sha256 (selectPrompt cA [(sA, 0)])) = none ∧
    (select_winner (JudgeReply.ok wA) cA [(sA, 0)] stA).1 = Except.ok wA ∧
    select_winner (JudgeReply.err "down") cA [(sA, 0)]
        ((select_winner (JudgeReply.ok wA) cA [(sA, 0)] stA).2)
      = (Except.ok wA, (select_winner (JudgeReply.ok wA) cA [(sA, 0)] stA).2) :=
  ⟨rfl,
   (claim_select_winner_cache_idempotent cA [(sA, 0)] stA wA (JudgeReply.err "down") rfl).1,
   (claim_select_winner_cache_idempotent cA [(sA, 0)] stA wA (JudgeReply.err "down") rfl).2.2⟩

/-- C5: in every state reachable from the empty deployment by the system
operations (contract creation, agent registration, submission creation
via the submissions_manager handler — which writes rows with
is_winner = false — and Critic evaluation, which flips exactly the
selected winner), at most one submission row per contract id has
is_winner = true. -/
theorem claim_at_most_one_winner (st : MarketState) (h : Reachable st)
    (cid : String) : winnerCount st cid ≤ 1 :=
  (inv_reachable st h).2.2.2 cid

/-- Witness for C5 at the one-step reachable state that creates cA. -/
theorem claim_at_most_one_winner_witness :
    Reachable (create_contract cA initState) ∧
    winnerCount (create_contract cA initState) "c-1" ≤ 1 := by
  have hr : Reachable (create_contract cA initState) :=
    Relation.ReflTransGen.single
      (Step.create initState cA rfl
        (by intro c2 hc2; exact absurd hc2 (List.not_mem_nil c2)))
  exact ⟨hr, claim_at_most_one_winner _ hr "c-1"⟩

/-- C6 (failing behaviour of the code): a well-formed OPEN contract of
type RESEARCH is skipped by delegate_task — the dispatch table maps only
IMAGE to the Artist and TEXT to the Copywriter and has no Analyst branch,
although the deployment passes an ANALYST_AGENT_ARN to the orchestrator,
grants it invoke on the Analyst, and the Analyst documents itself as
invoked by the orchestrator for RESEARCH contracts. -/
theorem claim_research_skipped :
    delegate_task
        (MarketplaceContract.mk (some "c-3") (some "RESEARCH")
          (some "Analyze the coffee market")) = none ∧
    delegate_task
        (MarketplaceContract.mk (some "c-3") (some "IMAGE") (some "Paint a logo"))
      = some (AgentTarget.artist, "Paint a logo", "c-3") ∧
    delegate_task
        (MarketplaceContract.mk (some "c-3") (some "TEXT") (some "Write a slogan"))
      = some (AgentTarget.copywriter, "Write a slogan", "c-3") ∧
    orchestrator_tick
        [MarketplaceContract.mk (some "c-3") (some "RESEARCH")
          (some "Analyze the coffee market")] = [] := by
  refine ⟨rfl, rfl, rfl, rfl⟩

/-- C7: the copywriter self-correction loop critiques at most 2 cycles
(and makes at most 4 generate_text calls); it submits only when the last
critiqued cycle scored at least 7, submitting the first slogan of that
cycle; and if every critiqued cycle scored below 7 the run ends in an
error with no submission. -/
theorem claim_copywriter_self_correction (genO : Nat → GenResult)
    (critO : Nat → Critique) (prompt : String) :
    (copywriter_handler genO critO prompt).critCalls ≤ 2 ∧
    (copywriter_handler genO critO prompt).genCalls ≤ 4 ∧
    (copywriter_handler genO critO prompt).cycles.length ≤ 2 ∧
    (∀ s, (copywriter_handler genO critO prompt).result = Except.ok s →
      ∃ l q, (copywriter_handler genO critO prompt).cycles.getLast?
          = some { slogans := l, score := q } ∧ 7 ≤ q ∧ l ≠ [] ∧
        s = l.headD "No slogan generated.") ∧
    ((∀ cyc ∈ (copywriter_handler genO critO prompt).cycles, cyc.score < 7) →
      ∃ e, (copywriter_handler genO critO prompt).result = Except.error e) := by
  obtain ⟨i1, i2, i3, i4⟩ := copywriter_loop_spec genO critO 2 prompt 0 0 []
  refine ⟨by simpa using i1, by simpa using i2, by simpa using i3, i4, ?_⟩
  intro hall
  cases hres : (copywriter_handler genO critO prompt).result with
  | error e => exact ⟨e, rfl⟩
  | ok s =>
    obtain ⟨l, q, hlast, hq, hl, hs⟩ := i4 s hres
    have hmem := List.mem_of_getLast?_eq_some hlast
    have hlt : q < 7 := hall _ hmem
    exact absurd hq (not_le.mpr hlt)

/-- Witness for C7: the spec scenario — critique score 5 on cycle 1 and
8 on cycle 2 — submits the first slogan of the second cycle after exactly
2 generation calls and 2 critique calls. -/
theorem claim_copywriter_self_correction_witness :
    (copywriter_handler genO7 critO7 "Write slogans").critCalls ≤ 2 ∧
    (copywriter_handler genO7 critO7 "Write slogans").result
      = Except.ok "Brew boldly" ∧
    (copywriter_handler genO7 critO7 "Write slogans").genCalls = 2 ∧
    (copywriter_handler genO7 critO7 "Write slogans").critCalls = 2 :=
  ⟨(claim_copywriter_self_correction genO7 critO7 "Write slogans").1, rfl, rfl, rfl⟩

/-- C10: when the reformulation cache read errors, or the cache misses
and the improvement call fails, reformulation still completes: the new
contract is created OPEN under the fresh id with the same goal_id, its
description is the original plus the failure suffix, and every contract
row carrying the original id is marked FAILED_REPOSTED. -/
theorem claim_reformulation_failure_resilient (cacheReadOk : Bool)
    (reply : Option String) (newUuid now : String) (orig : Contract)
    (st : MarketState)
    (hfail : cacheReadOk = false ∨
      (lookupCache st.cache (sha256 (reformPrompt orig.description)) = none ∧
        reply = none))
    (hne : orig.contract_id ≠ "contract-" ++ newUuid) :
    ((reformulate_and_repost_contract cacheReadOk reply newUuid now orig st).1).description
        = reformFallback orig.description ∧
    ((reformulate_and_repost_contract cacheReadOk reply newUuid now orig st).1).status
        = "OPEN" ∧
    ((reformulate_and_repost_contract cacheReadOk reply newUuid now orig st).1).goal_id
        = orig.goal_id ∧
    get_contract (reformulate_and_repost_contract cacheReadOk reply newUuid now orig st).2
        ("contract-" ++ newUuid)
      = some (reformulate_and_repost_contract cacheReadOk reply newUuid now orig st).1 ∧
    (∀ c ∈ ((reformulate_and_repost_contract cacheReadOk reply newUuid now orig st).2).contracts,
      c.contract_id = orig.contract_id → c.status = "FAILED_REPOSTED") := by
  have hfields := reformulate_newC_fields cacheReadOk reply newUuid now orig st
  have hcons := reformulate_contracts_eq cacheReadOk reply newUuid now orig st
  refine ⟨reformulate_desc_failure cacheReadOk reply newUuid now orig st hfail,
    hfields.2.1, hfields.2.2.1, ?_, ?_⟩
  · unfold get_contract
    rw [hcons]
    unfold putContract
    rw [List.find?_cons]
    have hpred : (((reformulate_and_repost_contract cacheReadOk reply newUuid now orig st).1).contract_id
        == "contract-" ++ newUuid) = true := by
      rw [hfields.1]
      exact beq_self_eq_true _
    rw [hpred]
  · intro c hc hcid
    rw [hcons] at hc
    rcases List.mem_cons.mp hc with rfl | hmem
    · rw [hfields.1] at hcid
      exact absurd hcid.symm hne
    · obtain ⟨c0, hc0, hc0eq⟩ := List.mem_map.mp (List.mem_of_mem_filter hmem)
      by_cases hcc : (c0.contract_id == orig.contract_id) = true
      · rw [if_pos hcc] at hc0eq
        rw [← hc0eq]
      · rw [if_neg hcc] at hc0eq
        subst hc0eq
        exact absurd hcid (by simpa using hcc)

/-- C4: evaluating an OPEN contract with zero submissions takes the
reformulation path: exactly one contract is added, reachable under the
fresh id, with status OPEN, the same goal_id, a fresh contract_id
different from the original, and the original title with the (V2)
suffix; the original contract is set to FAILED_REPOSTED. -/
theorem claim_reformulation_creates_v2 (env : CriticEnv) (cid : String)
    (st : MarketState) (contract : Contract)
    (hg : get_contract st cid = some contract)
    (hst : contract.status = "OPEN")
    (hnosubs : get_submissions_for_contract st cid = [])
    (hFresh : ∀ c ∈ st.contracts, c.contract_id ≠ "contract-" ++ env.newUuid) :
    (process_evaluation env cid st).1.statusCode = 200 ∧
    (process_evaluation env cid st).2 =
      (reformulate_and_repost_contract env.reformCacheReadOk env.reformReply
        env.newUuid env.now contract st).2 ∧
    ((process_evaluation env cid st).2).contracts.length = st.contracts.length + 1 ∧
    get_contract (process_evaluation env cid st).2 ("contract-" ++ env.newUuid)
      = some (reformulate_and_repost_contract env.reformCacheReadOk env.reformReply
          env.newUuid env.now contract st).1 ∧
    ((reformulate_and_repost_contract env.reformCacheReadOk env.reformReply
        env.newUuid env.now contract st).1).status = "OPEN" ∧
    ((reformulate_and_repost_contract env.reformCacheReadOk env.reformReply
        env.newUuid env.now contract st).1).goal_id = contract.goal_id ∧
    ((reformulate_and_repost_contract env.reformCacheReadOk env.reformReply
        env.newUuid env.now contract st).1).title = contract.title ++ " (V2)" ∧
    ((reformulate_and_repost_contract env.reformCacheReadOk env.reformReply
        env.newUuid env.now contract st).1).contract_id ≠ cid ∧
    get_contract (process_evaluation env cid st).2 cid
      = some { contract with status := "FAILED_REPOSTED" } := by
  have hcMem : contract ∈ st.contracts := List.mem_of_find?_eq_some hg
  have hcId : contract.contract_id = cid := by simpa using List.find?_some hg
  have hcidne : cid ≠ "contract-" ++ env.newUuid := by
    intro he
    exact hFresh contract hcMem (hcId.trans he)
  have hfields := reformulate_newC_fields env.reformCacheReadOk env.reformReply
    env.newUuid env.now contract st
  have hcons := reformulate_contracts_eq env.reformCacheReadOk env.reformReply
    env.newUuid env.now contract st
  have hred : process_evaluation env cid st =
      ({ statusCode := 200,
         body := "Contract had no submissions and was reformulated: " ++
           (reformulate_and_repost_contract env.reformCacheReadOk env.reformReply
             env.newUuid env.now contract st).1.contract_id },
       (reformulate_and_repost_contract env.reformCacheReadOk env.reformReply
         env.newUuid env.now contract st).2) := by
    unfold process_evaluation
    split
    · rename_i heq
      rw [hg] at heq
      cases heq
    rename_i contract2 heq
    rw [hg] at heq
    injection heq with heq2
    subst heq2
    rw [if_neg (by simp [hst])]
    dsimp only
    rw [if_pos (by rw [hnosubs]; rfl)]
  rw [hred]
  have hfilter : (st.contracts.map (fun c =>
        if c.contract_id == contract.contract_id
        then { c with status := "FAILED_REPOSTED" } else c)).filter
          (fun c2 => c2.contract_id !=
            ((reformulate_and_repost_contract env.reformCacheReadOk env.reformReply
              env.newUuid env.now contract st).1).contract_id)
      = st.contracts.map (fun c =>
        if c.contract_id == contract.contract_id
        then { c with status := "FAILED_REPOSTED" } else c) := by
    apply List.filter_eq_self.mpr
    intro a ha
    obtain ⟨c0, hc0, hc0eq⟩ := List.mem_map.mp ha
    have haid : a.contract_id = c0.contract_id := by
      rw [← hc0eq]
      by_cases hcc : (c0.contract_id == contract.contract_id) = true
      · rw [if_pos hcc]
      · rw [if_neg hcc]
    rw [bne_iff_ne, haid, hfields.1]
    exact hFresh c0 hc0
  refine ⟨rfl, rfl, ?_, ?_, hfields.2.1, hfields.2.2.1, hfields.2.2.2.1, ?_, ?_⟩
  · show ((reformulate_and_repost_contract env.reformCacheReadOk env.reformReply
        env.newUuid env.now contract st).2).contracts.length = _
    rw [hcons]
    unfold putContract
    rw [hfilter]
    simp [List.length_map]
  · show get_contract (reformulate_and_repost_contract env.reformCacheReadOk
        env.reformReply env.newUuid env.now contract st).2 _ = _
    unfold get_contract
    rw [hcons]
    unfold putContract
    rw [List.find?_cons]
    have hpred : (((reformulate_and_repost_contract env.reformCacheReadOk env.reformReply
        env.newUuid env.now contract st).1).contract_id == "contract-" ++ env.newUuid) = true := by
      rw [hfields.1]
      exact beq_self_eq_true _
    rw [hpred]
  · rw [hfields.1]
    exact fun he => hcidne he.symm
  · show get_contract (reformulate_and_repost_contract env.reformCacheReadOk
        env.reformReply env.newUuid env.now contract st).2 _ = _
    unfold get_contract
    rw [hcons]
    unfold putContract
    rw [List.find?_cons]
    have hpred : (((reformulate_and_repost_contract env.reformCacheReadOk env.reformReply
        env.newUuid env.now contract st).1).contract_id == cid) = false := by
      rw [hfields.1]
      simp only [beq_eq_false_iff_ne, ne_eq]
      exact fun he => hcidne he.symm
    rw [hpred]
    show List.find? _ (List.filter _ _) = _
    rw [find?_filter_keep _ _ _ ?keep]
    case keep =>
      intro a hpa
      have haeq : a.contract_id = cid := by simpa using hpa
      rw [bne_iff_ne, haeq, hfields.1]
      exact hcidne
    rw [find?_map_key _ (fun c => c.contract_id) cid st.contracts ?pres]
    case pres =>
      intro a
      by_cases hcc : (a.contract_id == contract.contract_id) = true
      · rw [if_pos hcc]
      · rw [if_neg hcc]
    have hfind : st.contracts.find? (fun c => c.contract_id == cid) = some contract := hg
    rw [hfind]
    show some (if (contract.contract_id == contract.contract_id) = true
        then { contract with status := "FAILED_REPOSTED" } else contract) = _
    rw [if_pos (beq_self_eq_true _)]

/-- Witness for C4: evaluating cA in stC (no submissions) reformulates
it, creating the V2 contract under contract-u1. -/
theorem claim_reformulation_creates_v2_witness :
    get_contract stC "c-1" = some cA ∧
    get_submissions_for_contract stC "c-1" = [] ∧
    (process_evaluation envA "c-1" stC).1.statusCode = 200 ∧
    get_contract (process_evaluation envA "c-1" stC).2 "c-1"
      = some { cA with status := "FAILED_REPOSTED" } := by
  have h := claim_reformulation_creates_v2 envA "c-1" stC cA rfl rfl rfl
    (by
      intro c hc hEq
      have hc2 : c = cA := by simpa [stC] using hc
      subst hc2
      exact absurd hEq (by decide))
  exact ⟨rfl, rfl, h.1, h.2.2.2.2.2.2.2.2⟩

/-- C8 (counterexample to the claim as stated): when the judge model
returns parseable JSON without a winning_submission_id, the evaluation
does fail with a 500, but the model-response cache — one of the stores —
is mutated: the parsed verdict is cached before the missing id is
detected. -/
theorem claim_no_winner_counterexample :
    (process_evaluation envNoWinner "c-1" stA).1.statusCode = 500 ∧
    (process_evaluation envNoWinner "c-1" stA).2.cache ≠ stA.cache := by
  refine ⟨rfl, ?_⟩
  intro h
  exact List.noConfusion h

/-- C8 (amended): when the judge outcome yields no usable
winning_submission_id (an error, a missing key, or an empty value), the
evaluation returns 500 and none of the four primary stores is mutated:
contracts, submissions, agents and results are unchanged and the
contract row is untouched (hence still OPEN). -/
theorem claim_no_winner_amended (env : CriticEnv) (cid : String)
    (st : MarketState) (contract : Contract)
    (hg : get_contract st cid = some contract)
    (hst : contract.status = "OPEN")
    (hsubs : (get_submissions_for_contract st cid).isEmpty = false)
    (hno : returnedWinnerId (select_winner env.judge contract
        (enrich_submissions_with_reputation st.agents
          (get_submissions_for_contract st cid)) st).1 = none) :
    (process_evaluation env cid st).1.statusCode = 500 ∧
    (process_evaluation env cid st).2.contracts = st.contracts ∧
    (process_evaluation env cid st).2.submissions = st.submissions ∧
    (process_evaluation env cid st).2.agents = st.agents ∧
    (process_evaluation env cid st).2.results = st.results ∧
    get_contract (process_evaluation env cid st).2 cid = some contract := by
  unfold process_evaluation
  split
  · rename_i heq
    rw [hg] at heq
    cases heq
  rename_i contract2 heq
  rw [hg] at heq
  injection heq with heq2
  subst heq2
  rw [if_neg (by simp [hst])]
  dsimp only
  rw [if_neg (by simp [hsubs])]
  cases hsel : select_winner env.judge contract
      (enrich_submissions_with_reputation st.agents
        (get_submissions_for_contract st cid)) st with
  | mk r st1 =>
    have hfr := select_winner_frame env.judge contract
      (enrich_submissions_with_reputation st.agents
        (get_submissions_for_contract st cid)) st
    rw [hsel] at hfr hno
    have hgoal : get_contract st1 cid = some contract := by
      unfold get_contract
      rw [show st1.contracts = st.contracts from hfr.1]
      exact hg
    cases r with
    | error e =>
      exact ⟨rfl, hfr.1, hfr.2.1, hfr.2.2.1, hfr.2.2.2.1, hgoal⟩
    | ok w =>
      dsimp only
      unfold returnedWinnerId at hno
      dsimp only at hno
      cases hwid : w.winning_submission_id with
      | none =>
        exact ⟨rfl, hfr.1, hfr.2.1, hfr.2.2.1, hfr.2.2.2.1, hgoal⟩
      | some wid =>
        rw [hwid] at hno
        dsimp only at hno
        dsimp only
        by_cases hwe : wid.isEmpty = true
        · rw [if_pos hwe]
          exact ⟨rfl, hfr.1, hfr.2.1, hfr.2.2.1, hfr.2.2.2.1, hgoal⟩
        · rw [if_neg hwe] at hno
          cases hno

/-- Witness for C8 (amended): the concrete no-winner-id evaluation of cA
in stA returns 500 with all four primary stores unchanged. -/
theorem claim_no_winner_amended_witness :
    get_contract stA "c-1" = some cA ∧
    (process_evaluation envNoWinner "c-1" stA).1.statusCode = 500 ∧
    (process_evaluation envNoWinner "c-1" stA).2.submissions = stA.submissions ∧
    (process_evaluation envNoWinner "c-1" stA).2.agents = stA.agents := by
  have h := claim_no_winner_amended envNoWinner "c-1" stA cA rfl rfl rfl rfl
  exact ⟨rfl, h.1, h.2.2.1, h.2.2.2.1⟩

/-- C9: a submission against an existing non-OPEN contract is rejected
with the closed error (403) and no state change; and a row is written
(the submissions put counter advances, with the new is_winner = false row
on top) exactly when the path names a contract, the body supplies both
agent_id and submission_data, and the contract exists and is OPEN; in
every rejecting branch the state is unchanged. -/
theorem claim_submission_gate (newUuid now : String) (ev : SubmitEvent)
    (st : MarketState) :
    (∀ cid c, ev.contract_id = some cid → cid.isEmpty = false →
      optTruthy ev.agent_id = true → optTruthy ev.submission_data = true →
      get_contract st cid = some c → c.status ≠ "OPEN" →
      (submissions_handler newUuid now ev st).1.statusCode = 403 ∧
      (submissions_handler newUuid now ev st).1.body =
        "Contract with ID " ++ cid ++ " is closed and does not accept submissions." ∧
      (submissions_handler newUuid now ev st).2 = st) ∧
    ((submissions_handler newUuid now ev st).2.subPuts = st.subPuts + 1 ↔
      acceptedSubmission ev st = true) ∧
    ((submissions_handler newUuid now ev st).1.statusCode = 201 →
      (submissions_handler newUuid now ev st).2.submissions =
        { submission_id := "sub-" ++ newUuid, contract_id := ev.contract_id.getD "",
          agent_id := ev.agent_id, submission_data := ev.submission_data.getD "",
          created_at := now, is_winner := false } ::
          st.submissions.filter (fun s => s.submission_id != "sub-" ++ newUuid)) ∧
    ((submissions_handler newUuid now ev st).1.statusCode ≠ 201 →
      (submissions_handler newUuid now ev st).2 = st) := by
  unfold submissions_handler
  by_cases h1 : optTruthy ev.contract_id = true
  · rw [if_neg (by simp [h1])]
    dsimp only
    by_cases h2 : (!optTruthy ev.agent_id || !optTruthy ev.submission_data) = true
    · rw [if_pos h2]
      have h2or : optTruthy ev.agent_id = false ∨ optTruthy ev.submission_data = false := by
        simpa using h2
      refine ⟨?_, ?_, ?_, ?_⟩
      · intro cid c hcid hce ha hd hg hst
        rcases h2or with hf | hf
        · rw [ha] at hf; cases hf
        · rw [hd] at hf; cases hf
      · constructor
        · intro h
          dsimp only at h
          omega
        · intro hacc
          unfold acceptedSubmission at hacc
          rcases h2or with hf | hf <;> rw [hf] at hacc <;> simp at hacc
      · intro h
        dsimp only at h
        exact absurd h (by decide)
      · intro _
        rfl
    · rw [if_neg h2]
      have h2f : (!optTruthy ev.agent_id || !optTruthy ev.submission_data) = false := by
        simpa using h2
      rw [Bool.or_eq_false_iff] at h2f
      have hA : optTruthy ev.agent_id = true := by simpa using h2f.1
      have hD : optTruthy ev.submission_data = true := by simpa using h2f.2
      cases hgc : get_contract st (ev.contract_id.getD "") with
      | none =>
        refine ⟨?_, ?_, ?_, ?_⟩
        · intro cid c hcid hce ha hd hg hst
          have hgd : ev.contract_id.getD "" = cid := by rw [hcid]; rfl
          rw [hgd, hg] at hgc
          cases hgc
        · constructor
          · intro h
            dsimp only at h
            omega
          · intro hacc
            unfold acceptedSubmission at hacc
            rw [hgc] at hacc
            simp at hacc
        · intro h
          dsimp only at h
          exact absurd h (by decide)
        · intro _
          rfl
      | some c =>
        dsimp only
        by_cases h3 : c.status = "OPEN"
        · rw [if_neg (by simp [h3])]
          refine ⟨?_, ?_, ?_, ?_⟩
          · intro cid c2 hcid hce ha hd hg hst
            have hgd : ev.contract_id.getD "" = cid := by rw [hcid]; rfl
            rw [hgd, hg] at hgc
            injection hgc with hc2
            rw [hc2] at hst
            exact absurd h3 hst
          · refine iff_of_true rfl ?_
            unfold acceptedSubmission
            rw [h1, hA, hD, hgc]
            simp [h3]
          · intro _
            rfl
          · intro h
            exact absurd rfl h
        · have hbne : (c.status != "OPEN") = true := bne_iff_ne.mpr h3
          rw [if_pos hbne]
          refine ⟨?_, ?_, ?_, ?_⟩
          · intro cid c2 hcid hce ha hd hg hst
            have hgd : ev.contract_id.getD "" = cid := by rw [hcid]; rfl
            refine ⟨rfl, ?_, rfl⟩
            rw [hgd]
          · constructor
            · intro h
              dsimp only at h
              omega
            · intro hacc
              unfold acceptedSubmission at hacc
              rw [hgc] at hacc
              dsimp only at hacc
              have : (c.status == "OPEN") = false := by
                simpa using h3
              rw [this] at hacc
              simp at hacc
          · intro h
            dsimp only at h
            exact absurd h (by decide)
          · intro _
            rfl
  · rw [if_pos (by simpa using h1)]
    have h1f : optTruthy ev.contract_id = false := by simpa using h1
    refine ⟨?_, ?_, ?_, ?_⟩
    · intro cid c hcid hce ha hd hg hst
      rw [hcid] at h1f
      unfold optTruthy at h1f
      dsimp only at h1f
      rw [hce] at h1f
      simp at h1f
    · constructor
      · intro h
        dsimp only at h
        omega
      · intro hacc
        unfold acceptedSubmission at hacc
        rw [h1f] at hacc
        simp at hacc
    · intro h
      dsimp only at h
      exact absurd h (by decide)
    · intro _
      rfl

/-- Witness for C9: a submission against the CLOSED contract c-2 in stB
is rejected with 403 and the state is unchanged. -/
theorem claim_submission_gate_witness :
    get_contract stB "c-2" = some cB ∧
    (submissions_handler "u2" "t3"
      (SubmitEvent.mk (some "c-2") (some "a-1") (some "art.png")) stB).1.statusCode = 403 ∧
    (submissions_handler "u2" "t3"
      (SubmitEvent.mk (some "c-2") (some "a-1") (some "art.png")) stB).2 = stB := by
  have h := (claim_submission_gate "u2" "t3"
      (SubmitEvent.mk (some "c-2") (some "a-1") (some "art.png")) stB).1
    "c-2" cB rfl (by decide) (by decide) (by decide) rfl (by decide)
  exact ⟨rfl, h.1, h.2.2⟩

/-- C1: when evaluation of an OPEN contract with submissions obtains a
judge verdict naming an actual submission (with a truthy author id, a
registered agent row and a truthy goal id on the contract), the Critic
marks every row with the winning submission id is_winner = true,
increments the winning agent reputation by exactly 1, prepends the
Result record for the contract goal_id, and sets the contract status to
CLOSED, returning 200. -/
theorem claim_critic_success_effects (env : CriticEnv) (cid : String)
    (st : MarketState) (contract : Contract) (w : WinnerJson) (wid : String)
    (winner : Submission × Int) (aid : String) (a : Agent) (g : String)
    (hg : get_contract st cid = some contract)
    (hst : contract.status = "OPEN")
    (hsel : (select_winner env.judge contract
        (enrich_submissions_with_reputation st.agents
          (get_submissions_for_contract st cid)) st).1 = Except.ok w)
    (hwid : w.winning_submission_id = some wid)
    (hwe : wid.isEmpty = false)
    (hfind : (enrich_submissions_with_reputation st.agents
        (get_submissions_for_contract st cid)).find?
          (fun p => p.1.submission_id == wid) = some winner)
    (haid : winner.1.agent_id = some aid)
    (hane : aid.isEmpty = false)
    (hagent : st.agents.find? (fun ag => ag.agent_id == aid) = some a)
    (hgoal : contract.goal_id = some g)
    (hge : g.isEmpty = false) :
    (process_evaluation env cid st).1.statusCode = 200 ∧
    (∀ s ∈ ((process_evaluation env cid st).2).submissions,
      s.submission_id = wid → s.is_winner = true) ∧
    ((process_evaluation env cid st).2).agents.find? (fun ag => ag.agent_id == aid)
      = some { a with reputation := a.reputation + 1 } ∧
    ((process_evaluation env cid st).2).results =
      { goal_id := g, contract_id := contract.contract_id,
        winning_submission_id := winner.1.submission_id,
        winning_agent_id := winner.1.agent_id,
        submission_data := winner.1.submission_data,
        contract_type := contract.contract_type,
        evaluated_at := env.now } :: st.results ∧
    get_contract (process_evaluation env cid st).2 cid
      = some { contract with status := "CLOSED" } := by
  have hsubne : (get_submissions_for_contract st cid).isEmpty = false := by
    cases hsub : get_submissions_for_contract st cid with
    | nil =>
      rw [hsub] at hfind
      simp [enrich_submissions_with_reputation] at hfind
    | cons x xs => rfl
  unfold process_evaluation
  split
  · rename_i heq
    rw [hg] at heq
    cases heq
  rename_i contract2 heq
  rw [hg] at heq
  injection heq with heq2
  subst heq2
  rw [if_neg (by simp [hst])]
  dsimp only
  rw [if_neg (by simp [hsubne])]
  cases hselEq : select_winner env.judge contract
      (enrich_submissions_with_reputation st.agents
        (get_submissions_for_contract st cid)) st with
  | mk r st1 =>
    have hfr := select_winner_frame env.judge contract
      (enrich_submissions_with_reputation st.agents
        (get_submissions_for_contract st cid)) st
    rw [hselEq] at hfr hsel
    dsimp only at hsel
    subst hsel
    dsimp only
    rw [hwid]
    dsimp only
    rw [if_neg (by simp [hwe])]
    rw [hfind]
    dsimp only
    have hS : (update_contract_status cid "CLOSED"
        (save_final_result contract.goal_id contract winner.1 env.now
          (maybe_update_reputation winner.1.agent_id
            (update_winner_submission wid st1)))).submissions
        = st.submissions.map (fun s =>
            if s.submission_id == wid then { s with is_winner := true } else s) := by
      show (save_final_result contract.goal_id contract winner.1 env.now
        (maybe_update_reputation winner.1.agent_id
          (update_winner_submission wid st1))).submissions = _
      rw [save_final_result_submissions, maybe_update_reputation_submissions]
      show st1.submissions.map _ = _
      rw [hfr.2.1]
    have hAg : (update_contract_status cid "CLOSED"
        (save_final_result contract.goal_id contract winner.1 env.now
          (maybe_update_reputation winner.1.agent_id
            (update_winner_submission wid st1)))).agents
        = (update_agent_reputation aid 1 (update_winner_submission wid st1)).agents := by
      show (save_final_result contract.goal_id contract winner.1 env.now
        (maybe_update_reputation winner.1.agent_id
          (update_winner_submission wid st1))).agents = _
      rw [save_final_result_agents, haid, maybe_update_reputation_some aid _ hane]
    have hRes : (update_contract_status cid "CLOSED"
        (save_final_result contract.goal_id contract winner.1 env.now
          (maybe_update_reputation winner.1.agent_id
            (update_winner_submission wid st1)))).results
        = { goal_id := g, contract_id := contract.contract_id,
            winning_submission_id := winner.1.submission_id,
            winning_agent_id := winner.1.agent_id,
            submission_data := winner.1.submission_data,
            contract_type := contract.contract_type,
            evaluated_at := env.now } :: st.results := by
      show (save_final_result contract.goal_id contract winner.1 env.now
        (maybe_update_reputation winner.1.agent_id
          (update_winner_submission wid st1))).results = _
      rw [hgoal, save_final_result_results_some g contract winner.1 env.now _ hge,
        maybe_update_reputation_results,
        show (update_winner_submission wid st1).results = st1.results from rfl,
        hfr.2.2.2.1]
    have hCon : (update_contract_status cid "CLOSED"
        (save_final_result contract.goal_id contract winner.1 env.now
          (maybe_update_reputation winner.1.agent_id
            (update_winner_submission wid st1)))).contracts
        = st.contracts.map (fun c2 =>
            if c2.contract_id == cid then { c2 with status := "CLOSED" } else c2) := by
      show (save_final_result contract.goal_id contract winner.1 env.now
        (maybe_update_reputation winner.1.agent_id
          (update_winner_submission wid st1))).contracts.map _ = _
      rw [save_final_result_contracts, maybe_update_reputation_contracts]
      show st1.contracts.map _ = _
      rw [hfr.1]
    refine ⟨rfl, ?_, ?_, hRes, ?_⟩
    · intro s hs hsid
      rw [hS] at hs
      obtain ⟨s0, hs0, hs0eq⟩ := List.mem_map.mp hs
      by_cases hb : (s0.submission_id == wid) = true
      · rw [if_pos hb] at hs0eq
        rw [← hs0eq]
      · rw [if_neg hb] at hs0eq
        subst hs0eq
        exact absurd (beq_iff_eq.mpr hsid) hb
    · have hagentW : (update_winner_submission wid st1).agents.find?
          (fun ag => ag.agent_id == aid) = some a := by
        show st1.agents.find? _ = some a
        rw [hfr.2.2.1]
        exact hagent
      rw [hAg]
      exact update_agent_reputation_find aid 1 _ a hagentW
    · unfold get_contract
      rw [hCon]
      rw [find?_map_key _ (fun c => c.contract_id) cid st.contracts ?pres]
      case pres =>
        intro c2
        by_cases hcc : (c2.contract_id == cid) = true
        · rw [if_pos hcc]
        · rw [if_neg hcc]
      rw [show st.contracts.find? (fun c => c.contract_id == cid) = some contract from hg]
      show some (if (contract.contract_id == cid) = true
          then { contract with status := "CLOSED" } else contract) = _
      rw [if_pos (by simpa using List.find?_some hg)]

/-- Witness for C1: the concrete evaluation of cA in stA with a judge
verdict naming s-1 marks s-1, bumps agent a-1 to reputation 1, writes the
g-1 Result and closes c-1. -/
theorem claim_critic_success_effects_witness :
    get_contract stA "c-1" = some cA ∧
    (process_evaluation envA "c-1" stA).1.statusCode = 200 ∧
    ((process_evaluation envA "c-1" stA).2).agents.find?
        (fun ag => ag.agent_id == "a-1")
      = some { agA with reputation := agA.reputation + 1 } ∧
    get_contract (process_evaluation envA "c-1" stA).2 "c-1"
      = some { cA with status := "CLOSED" } := by
  have h := claim_critic_success_effects envA "c-1" stA cA wA "s-1"
    (sA, (0 : Int)) "a-1" agA "g-1" rfl rfl rfl rfl (by decide) rfl rfl
    (by decide) rfl rfl (by decide)
  exact ⟨rfl, h.1, h.2.2.1, h.2.2.2.2⟩

/-- Witness for C10: reformulating cA in stC with the cache read failing
yields the fallback description. -/
theorem claim_reformulation_failure_resilient_witness :
    cA.contract_id ≠ "contract-" ++ "u1" ∧
    ((reformulate_and_repost_contract false none "u1" "t2" cA stC).1).description
      = reformFallback cA.description :=
  ⟨by decide,
   (claim_reformulation_failure_resilient false none "u1" "t2" cA stC
     (Or.inl rfl) (by decide)).1⟩

end KratosNova
